import Mathlib

/-!
Verification of the matter-controller-mcp repository.

Strings handled by the JavaScript source are modelled as `List Char`.
Functions keep the names of the source functions they embed
(src/controllerUtils.ts and src/matterController.ts); platform builtins
(ECMAScript BigInt/parseInt/JSON.stringify string conversions) and the
small surface of the external @matter libraries that the code calls
(NodeId validation, NodeId.toHexString, Bytes.toHex) are modelled from
their documented behaviour, each marked in its doc comment.
-/

namespace MatterMcp

/-- Characters treated as whitespace by the ECMAScript string conversions
(space, tab, LF, VT, FF, CR, NBSP, BOM; further Unicode space separators
are irrelevant for the identifiers considered here). Modelled from the
platform. -/
def isJsWhitespace (c : Char) : Bool :=
  c = ' ' || c = '\t' || c = '\n' || c = '\r' ||
  c = '\x0b' || c = '\x0c' || c = '\xa0' || c = '\uFEFF'

/-- Strip leading and trailing whitespace, as the ECMAScript ToNumber /
StringToBigInt conversions and String.prototype.trim do. -/
def jsTrim (s : List Char) : List Char :=
  ((s.dropWhile isJsWhitespace).reverse.dropWhile isJsWhitespace).reverse

/-- Numeric value of a single digit character, accepting the hexadecimal
letters in both cases. -/
def digitValue (c : Char) : Option Nat :=
  if '0' ≤ c && c ≤ '9' then some (c.toNat - 48)
  else if 'a' ≤ c && c ≤ 'f' then some (c.toNat - 87)
  else if 'A' ≤ c && c ≤ 'F' then some (c.toNat - 55)
  else none

/-- Left-to-right accumulation of digits in the given base; fails on the
first character that is not a digit of the base. -/
def radixCore (base : Nat) : List Char → Nat → Option Nat
  | [], acc => some acc
  | c :: cs, acc =>
    match digitValue c with
    | some d => if d < base then radixCore base cs (base * acc + d) else none
    | none => none

/-- Value of a non-empty all-digit string in the given base. -/
def radixValue (base : Nat) (cs : List Char) : Option Nat :=
  match cs with
  | [] => none
  | _ => radixCore base cs 0

/-- The ECMAScript decimal production of StringToBigInt: an optional sign
followed by at least one decimal digit. -/
def signedDecimal : List Char → Option Int
  | '+' :: rest => (radixValue 10 rest).map (fun n => (n : Int))
  | '-' :: rest => (radixValue 10 rest).map (fun n => -(n : Int))
  | cs => (radixValue 10 cs).map (fun n => (n : Int))

/-- StringToBigInt on an already trimmed string: the empty string is 0,
a 0x/0o/0b prefix selects a non-decimal radix, anything else must be a
signed decimal numeral. Modelled from the platform. -/
def jsBigIntTrimmed : List Char → Option Int
  | [] => some 0
  | c1 :: c2 :: rest =>
    if c1 = '0' && (c2 = 'x' || c2 = 'X') then (radixValue 16 rest).map (fun n => (n : Int))
    else if c1 = '0' && (c2 = 'o' || c2 = 'O') then (radixValue 8 rest).map (fun n => (n : Int))
    else if c1 = '0' && (c2 = 'b' || c2 = 'B') then (radixValue 2 rest).map (fun n => (n : Int))
    else signedDecimal (c1 :: c2 :: rest)
  | cs => signedDecimal cs

/-- The ECMAScript BigInt(string) conversion: trim, then parse; a failure
(`SyntaxError` in the platform) is `none`. Modelled from the platform. -/
def jsBigInt (s : List Char) : Option Int :=
  jsBigIntTrimmed (jsTrim s)

/-- Modelled from the external library (@matter/types): the NodeId
constructor validates that the value is an unsigned 64-bit integer and
throws otherwise. -/
def nodeIdCheck (v : Int) : Option Int :=
  if 0 ≤ v && v < 18446744073709551616 then some v else none

/-- Digit character (lowercase) for a value below 16. -/
def hexDigitChar (n : Nat) : Char :=
  if n < 10 then Char.ofNat (48 + n) else Char.ofNat (87 + n)

/-- Digits of `n` in the given base, most significant first, written with
explicit fuel so that the definition is structural. Mirrors the platform
Number/BigInt toString(base) rendering (lowercase). -/
def natToDigitsAux (base : Nat) : Nat → Nat → List Char
  | 0, _ => []
  | fuel + 1, n =>
    if n < base then [hexDigitChar n]
    else natToDigitsAux base fuel (n / base) ++ [hexDigitChar (n % base)]

/-- Rendering of `n` in the given base, most significant digit first. -/
def natToDigits (base : Nat) (n : Nat) : List Char :=
  natToDigitsAux base (n + 1) n

/-- String.prototype.padStart with a single pad character. -/
def padStart (len : Nat) (c : Char) (s : List Char) : List Char :=
  List.replicate (len - s.length) c ++ s

/-- Modelled from the external library (@matter/types): NodeId.toHexString
renders an id as 0x-prefixed zero-padded 16-digit lowercase hexadecimal.
The theorems below do not depend on the padding or on the digit case. -/
def toHexString (v : Int) : List Char :=
  '0' :: 'x' :: padStart 16 '0'
    (if v < 0 then '-' :: natToDigits 16 (-v).toNat else natToDigits 16 v.toNat)

/-- The test of the /[A-Fa-f]/ regular expression in parseNodeId. -/
def isHexLetter (c : Char) : Bool :=
  ('A' ≤ c && c ≤ 'F') || ('a' ≤ c && c ≤ 'f')

/-- Whether some character of the string is a hexadecimal letter. -/
def containsHexLetter (s : List Char) : Bool :=
  s.any isHexLetter

/-- hexString.replace of the /^0x/i regular expression with the empty
string: drop one leading 0x or 0X. -/
def stripHex0x : List Char → List Char
  | c1 :: c2 :: rest =>
    if c1 = '0' && (c2 = 'x' || c2 = 'X') then rest else c1 :: c2 :: rest
  | cs => cs

/-- NodeIdUtils.fromHexString: strip an optional 0x prefix, re-prefix 0x
and convert through BigInt, then build the NodeId. -/
def fromHexString (s : List Char) : Option Int :=
  (jsBigInt ('0' :: 'x' :: stripHex0x s)).bind nodeIdCheck

/-- NodeIdUtils.parseNodeId: a string containing a hexadecimal letter is
parsed as hex, anything else is handed to BigInt as written. -/
def parseNodeId (s : List Char) : Option Int :=
  if containsHexLetter s then fromHexString s
  else (jsBigInt s).bind nodeIdCheck

/-- NodeIdUtils.validateAndNormalizeNodeId: parse, then re-encode through
NodeId.toHexString (failures are re-thrown with a uniform message, which
Option already captures). -/
def validateAndNormalizeNodeId (s : List Char) : Option (List Char) :=
  (parseNodeId s).map toHexString

/-- Decimal digit test. -/
def isDecDigit (c : Char) : Bool :=
  '0' ≤ c && c ≤ '9'

/-- Hexadecimal digit test (either case). -/
def isHexDigit (c : Char) : Bool :=
  (digitValue c).isSome

/-- Modelled from the spec, for comparison in claim C5: a string in the hex
form the spec admits, namely one containing at least one A-F letter (either
case) whose remainder after removing an optional 0x prefix is a non-empty
string of hexadecimal digits. -/
def specHexForm (s : List Char) : Bool :=
  containsHexLetter s && !(stripHex0x s).isEmpty && (stripHex0x s).all isHexDigit

/-- Modelled from the spec, for comparison in claim C5: a pure-decimal
string. -/
def specDecForm (s : List Char) : Bool :=
  !s.isEmpty && s.all isDecDigit

/-! ### Value serializer (serializeJson) -/

/-! A JavaScript runtime value, as far as serializeJson discriminates
values: strings, numbers, bigints, booleans, null, undefined, byte arrays
(Uint8Array) and the two containers. The containers carry their own list
types (mutual rather than nested inductives) so that every function on
them is structurally recursive. -/

mutual

inductive JsValue where
  | vstr : List Char → JsValue
  | vnum : Int → JsValue
  | vbig : Int → JsValue
  | vbool : Bool → JsValue
  | vnull : JsValue
  | vundef : JsValue
  | vbytes : List Nat → JsValue
  | varr : JsArr → JsValue
  | vobj : JsObj → JsValue

inductive JsArr where
  | anil : JsArr
  | acons : JsValue → JsArr → JsArr

inductive JsObj where
  | onil : JsObj
  | ocons : List Char → JsValue → JsObj → JsObj

end

mutual

/-- Number of nodes of a value; used as serialization fuel. -/
def JsValue.fuelSize : JsValue → Nat
  | .varr xs => 1 + JsArr.fuelSize xs
  | .vobj kvs => 1 + JsObj.fuelSize kvs
  | _ => 1

/-- Number of nodes of an array. -/
def JsArr.fuelSize : JsArr → Nat
  | .anil => 1
  | .acons x xs => 1 + JsValue.fuelSize x + JsArr.fuelSize xs

/-- Number of nodes of an object. -/
def JsObj.fuelSize : JsObj → Nat
  | .onil => 1
  | .ocons _ v kvs => 1 + JsValue.fuelSize v + JsObj.fuelSize kvs

end

/-- Array literal helper. -/
def jarr : List JsValue → JsArr
  | [] => .anil
  | x :: xs => .acons x (jarr xs)

/-- Object literal helper. -/
def jobj : List (List Char × JsValue) → JsObj
  | [] => .onil
  | (k, v) :: kvs => .ocons k v (jobj kvs)

/-- The typeof value == string test. -/
def JsValue.isVStr : JsValue → Bool
  | .vstr _ => true
  | _ => false

/-- Decimal rendering of an integer (BigInt.prototype.toString). -/
def intToDec (v : Int) : List Char :=
  if v < 0 then '-' :: natToDigits 10 (-v).toNat else natToDigits 10 v.toNat

/-- Modelled from the external library (@matter/main): Bytes.toHex renders
each byte as two lowercase hexadecimal digits. -/
def bytesToHex (bs : List Nat) : List Char :=
  bs.foldr (fun b acc => padStart 2 '0' (natToDigits 16 (b % 256)) ++ acc) []

/-- The replacer callback of serializeJson, applied by JSON.stringify to
every key/value pair: a nodeId field whose value is not already a string
is re-encoded through NodeId.toHexString, bigints become decimal strings,
byte arrays lowercase hex strings, and undefined the literal placeholder
string. The library hex rendering is modelled only on numeric values, so a
nodeId field holding a non-numeric non-string value is outside the model
(`none`). -/
def replaceVal (key : List Char) (v : JsValue) : Option JsValue :=
  if key = (("nodeId").data) && !v.isVStr then
    match v with
    | .vnum n => some (.vstr (toHexString n))
    | .vbig n => some (.vstr (toHexString n))
    | _ => none
  else
    match v with
    | .vbig n => some (.vstr (intToDec n))
    | .vbytes bs => some (.vstr (bytesToHex bs))
    | .vundef => some (.vstr (("undefined").data))
    | _ => some v

/-- JSON string quoting; escaping beyond quote and backslash is not needed
for the values considered here. Modelled from the platform. -/
def jsonQuote (s : List Char) : List Char :=
  '"' :: s.foldr (fun c acc =>
    if c = '"' || c = '\\' then '\\' :: c :: acc else c :: acc) ['"']

/-- A pending serialization task: one keyed value, the remaining elements
of an array (with the next index), or the remaining fields of an object. -/
inductive SerJob where
  | jval : List Char → JsValue → SerJob
  | jitems : Nat → JsArr → SerJob
  | jfields : JsObj → SerJob

/-- The recursive core of JSON.stringify with the replacer above, written
with explicit fuel so that the recursion is structural. Raw bigints,
undefined results and byte arrays never reach the rendering step because
the replacer rewrites them first; they are mapped to `none` (the platform
would throw for a raw bigint and drop an undefined property). Modelled
from the platform. -/
def serRun : Nat → SerJob → Option (List Char)
  | 0, _ => none
  | fuel + 1, .jval key v =>
    (replaceVal key v).bind (fun w =>
      match w with
      | .vstr s => some (jsonQuote s)
      | .vnum n => some (intToDec n)
      | .vbool b => some (if b then ("true").data else ("false").data)
      | .vnull => some (("null").data)
      | .vbig _ => none
      | .vundef => none
      | .vbytes _ => none
      | .varr xs => (serRun fuel (.jitems 0 xs)).map (fun body => '[' :: body ++ [']'])
      | .vobj kvs =>
        (serRun fuel (.jfields kvs)).map (fun body => '\x7b' :: body ++ ['\x7d']))
  | _ + 1, .jitems _ .anil => some []
  | fuel + 1, .jitems i (.acons x .anil) => serRun fuel (.jval (natToDigits 10 i) x)
  | fuel + 1, .jitems i (.acons x xs) =>
    (serRun fuel (.jval (natToDigits 10 i) x)).bind (fun shd =>
      (serRun fuel (.jitems (i + 1) xs)).map (fun stl => shd ++ ',' :: stl))
  | _ + 1, .jfields .onil => some []
  | fuel + 1, .jfields (.ocons k v .onil) =>
    (serRun fuel (.jval k v)).map (fun sv => jsonQuote k ++ ':' :: sv)
  | fuel + 1, .jfields (.ocons k v kvs) =>
    (serRun fuel (.jval k v)).bind (fun sv =>
      (serRun fuel (.jfields kvs)).map (fun stl => (jsonQuote k ++ ':' :: sv) ++ ',' :: stl))

/-- serializeJson: JSON.stringify with the replacer, starting from the
top-level empty key as the platform does. -/
def serializeJson (v : JsValue) : Option (List Char) :=
  serRun (2 * JsValue.fuelSize v + 2) (.jval [] v)

/-! ### Structure diagnostics formatter (filterDuplicateAttributes) -/

/-- The word-character class of the attribute regular expression. -/
def isWordChar (c : Char) : Bool :=
  ('a' ≤ c && c ≤ 'z') || ('A' ≤ c && c ≤ 'Z') || ('0' ≤ c && c ≤ '9') || c = '_'

/-- String.prototype.includes: the needle occurs somewhere in the hay. -/
def containsSub : List Char → List Char → Bool
  | needle, [] => needle.isEmpty
  | needle, c :: rest => needle.isPrefixOf (c :: rest) || containsSub needle rest

/-- The match, anchored at the start of the trimmed line, of the attribute
regular expression: a word-character run, whitespace, the literal id:,
whitespace, then 0x followed by hexadecimal digits. Returns the two capture
groups (attribute name and hex id); greedy matching coincides with maximal
runs because the character classes are disjoint from what follows them. -/
def attrMatch (t : List Char) : Option (List Char × List Char) :=
  let name := t.takeWhile isWordChar
  if name.isEmpty then none
  else
    let r1 := t.dropWhile isWordChar
    if (r1.takeWhile isJsWhitespace).isEmpty then none
    else
      let r2 := r1.dropWhile isJsWhitespace
      if (("id:").data).isPrefixOf r2 then
        let r3 := r2.drop 3
        if (r3.takeWhile isJsWhitespace).isEmpty then none
        else
          let r4 := r3.dropWhile isJsWhitespace
          if (("0x").data).isPrefixOf r4 then
            let ds := (r4.drop 2).takeWhile isHexDigit
            if ds.isEmpty then none else some (name, '0' :: 'x' :: ds)
          else none
      else none

/-- The condition on which the loop leaves an attributes section: a sibling
section header, an endpoint header, or a line back at base indentation. -/
def exitsAttributes (line t : List Char) : Bool :=
  t == ("commands").data || t == ("events").data ||
  (("clients").data).isPrefixOf t || (("childs").data).isPrefixOf t ||
  (containsSub (("endpoint#:").data) t && containsSub (("type:").data) t) ||
  (!line.isEmpty && !((("  ").data).isPrefixOf line) && !((("\t").data).isPrefixOf line))

/-- The de-duplication key, attributeName_attributeId. -/
def attrKey (p : List Char × List Char) : List Char :=
  p.1 ++ '_' :: p.2

/-- Whether the filter recognizes a line as an attribute line: the includes
guard together with the regular expression on the trimmed line. -/
def isAttrLine (line : List Char) : Bool :=
  containsSub ((" id: 0x").data) (jsTrim line) && (attrMatch (jsTrim line)).isSome

/-- The loop of filterDuplicateAttributes over the split lines, carrying
the in-attributes flag and the set of keys already seen in the current
block (the write-only attributesSectionStartIndex variable of the source is
omitted: it is never read). -/
def filterLoop : Bool → List (List Char) → List (List Char) → List (List Char)
  | _, _, [] => []
  | inAttr, seen, line :: rest =>
    if jsTrim line == ("attributes").data then
      line :: filterLoop true [] rest
    else if inAttr && exitsAttributes line (jsTrim line) then
      line :: filterLoop false [] rest
    else if inAttr && containsSub ((" id: 0x").data) (jsTrim line) then
      match attrMatch (jsTrim line) with
      | some p =>
        if seen.contains (attrKey p) then filterLoop inAttr seen rest
        else line :: filterLoop inAttr (attrKey p :: seen) rest
      | none => line :: filterLoop inAttr seen rest
    else line :: filterLoop inAttr seen rest

/-- Split on the newline character (String.prototype.split). -/
def splitNl : List Char → List (List Char)
  | [] => [[]]
  | c :: rest =>
    if c = '\n' then [] :: splitNl rest
    else
      match splitNl rest with
      | l :: ls => (c :: l) :: ls
      | [] => [[c]]

/-- Join with the newline character (Array.prototype.join). -/
def joinNl : List (List Char) → List Char
  | [] => []
  | [l] => l
  | l :: ls => l ++ '\n' :: joinNl ls

/-- filterDuplicateAttributes: split into lines, drop attribute lines whose
key already occurred in the current attributes block, join back. -/
def filterDuplicateAttributes (s : List Char) : List Char :=
  joinNl (filterLoop false [] (splitNl s))

/-- The checking automaton for the no-duplicates property: relative to the
same block boundaries and resets as the filter, no attribute key may repeat
within one attributes block of the given lines. -/
def dedupOK : Bool → List (List Char) → List (List Char) → Bool
  | _, _, [] => true
  | inAttr, seen, line :: rest =>
    if jsTrim line == ("attributes").data then
      dedupOK true [] rest
    else if inAttr && exitsAttributes line (jsTrim line) then
      dedupOK false [] rest
    else if inAttr && containsSub ((" id: 0x").data) (jsTrim line) then
      match attrMatch (jsTrim line) with
      | some p => !seen.contains (attrKey p) && dedupOK inAttr (attrKey p :: seen) rest
      | none => dedupOK inAttr seen rest
    else dedupOK inAttr seen rest

/-! ### Attribute access engine: read_attributes (C1, C10) -/

/-- An attribute path as reported by readAllAttributes. -/
structure AttrPath where
  endpointId : Int
  clusterId : Int
  attributeId : Int
  deriving DecidableEq

/-- One raw attribute entry of readAllAttributes. -/
structure AttrEntry where
  path : AttrPath
  value : Int
  version : Nat
  deriving DecidableEq

/-- The validated arguments of read_attributes after schema defaults. -/
structure ReadArgs where
  endpointId : Int
  clusterId : Int
  attributeIds : Option (List Int)
  deriving DecidableEq

/-- One transformed entry of the read response. -/
structure ReadRespAttr where
  id : Int
  value : Int
  version : Nat
  deriving DecidableEq

/-- The structured read response (the summary text is a fixed function of
the other fields and is omitted). -/
structure ReadResponse where
  nodeId : List Char
  endpointId : Int
  clusterId : Int
  attributes : List ReadRespAttr
  deriving DecidableEq

/-- Array.prototype.join with a separator. -/
def joinSep (sep : List Char) : List (List Char) → List Char
  | [] => []
  | [x] => x
  | x :: xs => x ++ sep ++ joinSep sep xs

/-- The logger.warn text for requested-but-absent attribute ids. -/
def missingWarnText (missing : List Int) : List Char :=
  ("Some requested attributes were not found: ").data ++
    joinSep ((", ").data) (missing.map intToDec)

/-- The attributes the node reports for one (endpoint, cluster) pair. -/
def clusterAttributesOf (allAttributes : List AttrEntry) (ep cl : Int) : List AttrEntry :=
  allAttributes.filter (fun item =>
    item.path.endpointId == ep && item.path.clusterId == cl)

/-- The requested attributes among them. -/
def foundAttributesOf (allAttributes : List AttrEntry) (ep cl : Int)
    (ids : List Int) : List AttrEntry :=
  (clusterAttributesOf allAttributes ep cl).filter (fun item =>
    ids.contains item.path.attributeId)

/-- The requested ids that are absent. -/
def missingIdsOf (allAttributes : List AttrEntry) (ep cl : Int)
    (ids : List Int) : List Int :=
  ids.filter (fun i =>
    !(((foundAttributesOf allAttributes ep cl ids).map
        (fun e => e.path.attributeId)).contains i))

/-- handleReadAttributes after validation and connection: filter the
reported attributes by endpoint and cluster and optionally by the requested
ids, log a warning listing requested ids that are absent, and fail only
when the filtered set is empty (the thrown McpError is re-wrapped by the
outer catch into the uniform envelope; only its message is modelled).
Returns the response or error together with the warnings logged. -/
def handleReadAttributes (nodeIdString : List Char) (allAttributes : List AttrEntry)
    (a : ReadArgs) : Except (List Char) ReadResponse × List (List Char) :=
  let filteredAndWarn :=
    match a.attributeIds with
    | some ids =>
      if ids.length > 0 then
        (foundAttributesOf allAttributes a.endpointId a.clusterId ids,
         if (missingIdsOf allAttributes a.endpointId a.clusterId ids).length > 0 then
           [missingWarnText (missingIdsOf allAttributes a.endpointId a.clusterId ids)]
         else [])
      else (clusterAttributesOf allAttributes a.endpointId a.clusterId, [])
    | none => (clusterAttributesOf allAttributes a.endpointId a.clusterId, [])
  if filteredAndWarn.1.length == 0 then
    (Except.error (if a.attributeIds.isSome then
        ("No requested attributes found on endpoint ").data ++ intToDec a.endpointId ++
          (" of cluster ").data ++ intToDec a.clusterId
      else
        ("No attributes found on endpoint ").data ++ intToDec a.endpointId ++
          (" of cluster ").data ++ intToDec a.clusterId),
     filteredAndWarn.2)
  else
    (Except.ok
      { nodeId := nodeIdString
        endpointId := a.endpointId
        clusterId := a.clusterId
        attributes := filteredAndWarn.1.map (fun attr =>
          { id := attr.path.attributeId, value := attr.value, version := attr.version }) },
     filteredAndWarn.2)

/-! ### Attribute access engine: write_attributes (C2) -/

/-- A functional unit as the write handler sees it: its endpoint number and
the ids of the clusters for which a cluster client exists. -/
structure MDevice where
  number : Int
  clusters : List Int
  deriving DecidableEq

/-- The validated arguments of write_attributes: the attribute map in
object entry order with keys as written. -/
structure WriteArgs where
  endpointId : Int
  clusterId : Int
  attributes : List (List Char × Int)

/-- One per-item write result. -/
structure WriteItemResult where
  success : Bool
  detail : List Char
  deriving DecidableEq

/-- The structured write response; writeResults is keyed by the parsed
numeric attribute id (none is the NaN key). -/
structure WriteResponse where
  nodeId : List Char
  endpointId : Int
  clusterId : Int
  writeResults : List (Option Int × WriteItemResult)
  deriving DecidableEq

/-- parseInt with the default radix: skip leading whitespace, read an
optional sign, detect an optional 0x prefix, then take the value of the
maximal digit prefix; none is NaN. Modelled from the platform. -/
def jsParseInt (s : List Char) : Option Int :=
  let t := s.dropWhile isJsWhitespace
  let signAndRest : Bool × List Char :=
    match t with
    | '-' :: rest => (true, rest)
    | '+' :: rest => (false, rest)
    | _ => (false, t)
  let baseAndDigits : Nat × List Char :=
    match signAndRest.2 with
    | c1 :: c2 :: rest =>
      if c1 = '0' && (c2 = 'x' || c2 = 'X') then (16, rest) else (10, signAndRest.2)
    | _ => (10, signAndRest.2)
  let ds := baseAndDigits.2.takeWhile (fun c =>
    match digitValue c with
    | some d => decide (d < baseAndDigits.1)
    | none => false)
  match radixValue baseAndDigits.1 ds with
  | some n => some (if signAndRest.1 then -(n : Int) else (n : Int))
  | none => none

/-- Assignment writeResults[attributeId] = r: replace an existing entry for
the key in place, or append a new one (JavaScript object semantics). -/
def upsertResult : List (Option Int × WriteItemResult) → Option Int → WriteItemResult →
    List (Option Int × WriteItemResult)
  | [], k, v => [(k, v)]
  | (k1, v1) :: rest, k, v =>
    if k1 == k then (k, v) :: rest else (k1, v1) :: upsertResult rest k v

/-- The per-item result of one setAttribute call. -/
def writeOutcome : Except (List Char) Unit → WriteItemResult
  | Except.ok _ => { success := true, detail := ("Attribute written successfully").data }
  | Except.error e => { success := false, detail := ("Failed to write: ").data ++ e }

/-- The write loop: parse each key, attempt the write, record the per-item
result; each failure is caught per item and never stops the loop. Returns
the result map and the trace of attempted (id, value) calls in order. -/
def writeLoop (setAttr : Option Int → Int → Except (List Char) Unit) :
    List (List Char × Int) → List (Option Int × WriteItemResult) →
    List (Option Int × WriteItemResult) × List (Option Int × Int)
  | [], acc => (acc, [])
  | (k, v) :: rest, acc =>
    let out := writeLoop setAttr rest
      (upsertResult acc (jsParseInt k) (writeOutcome (setAttr (jsParseInt k) v)))
    (out.1, (jsParseInt k, v) :: out.2)

/-- handleWriteAttributes after validation and connection: resolve the
endpoint among the node devices and the cluster client, then attempt every
entry of the attribute map independently. Returns the result and the trace
of attempted setAttribute calls. -/
def handleWriteAttributes (nodeIdString : List Char) (devices : List MDevice)
    (setAttr : Option Int → Int → Except (List Char) Unit) (a : WriteArgs) :
    Except (List Char) WriteResponse × List (Option Int × Int) :=
  match devices.find? (fun d => d.number == a.endpointId) with
  | none =>
    (Except.error (("Endpoint ").data ++ intToDec a.endpointId ++ (" not found").data), [])
  | some d =>
    if d.clusters.contains a.clusterId then
      (Except.ok
        { nodeId := nodeIdString
          endpointId := a.endpointId
          clusterId := a.clusterId
          writeResults := (writeLoop setAttr a.attributes []).1 },
       (writeLoop setAttr a.attributes []).2)
    else
      (Except.error (("Cluster ").data ++ intToDec a.clusterId ++
        (" not available on device ").data ++ nodeIdString ++
        (" endpoint ").data ++ intToDec a.endpointId), [])

/-- First-occurrence de-duplication of key lists. -/
def dedupFirst : List (Option Int) → List (Option Int)
  | [] => []
  | x :: xs => x :: (dedupFirst xs).filter (fun y => !(y == x))

/-- The value of the last entry for a given key. -/
def lastValueFor (attrs : List (List Char × Int)) (k : Option Int) : Int :=
  (((attrs.filter (fun p => jsParseInt p.1 == k)).map (fun p => p.2)).getLast?).getD 0

/-- Association lookup in the write result map. -/
def lookupRes : List (Option Int × WriteItemResult) → Option Int → Option WriteItemResult
  | [], _ => none
  | (k1, v) :: rest, k => if k1 == k then some v else lookupRes rest k

/-! ### control_color_device (C7) -/

/-- The externally visible events of one control_color_device run. -/
inductive ColorEv where
  | connected : ColorEv
  | endpointResolved : Int → ColorEv
  | clusterResolved : ColorEv
  | cmdColorTemperature : Int → ColorEv
  | cmdHueSaturation : Int → Int → ColorEv
  | cmdHue : Int → ColorEv
  | cmdSaturation : Int → ColorEv
  deriving DecidableEq

/-- The validated arguments of control_color_device. -/
structure ColorArgs where
  nodeId : List Char
  colorTemperature : Option Int
  hue : Option Int
  saturation : Option Int
  endpointId : Int

/-- A device as the color handler sees it: its endpoint number and whether
the ColorControl cluster client is available. -/
structure ColorDevice where
  number : Int
  hasColorControl : Bool
  deriving DecidableEq

/-- Errors leaving the color handler: a normalization failure or a
connection failure (both raised before the try block and not wrapped), or
any error of the try block wrapped into the uniform internal-error
envelope. -/
inductive ColorErr where
  | invalidNodeId : ColorErr
  | connectFailed : List Char → ColorErr
  | wrapped : List Char → ColorErr
  deriving DecidableEq

/-- The trailing check and response of the color handler: an empty result
string means no color parameter was handled. -/
def colorFinish (result : List Char) (trace : List ColorEv) :
    Except ColorErr (List Char) × List ColorEv :=
  if result.isEmpty then
    (Except.error (ColorErr.wrapped
      (("At least one color parameter (colorTemperature, hue, or saturation) must be provided").data)),
     trace)
  else (Except.ok result, trace)

/-- The ternary of the result templates. -/
def andText (result : List Char) : List Char :=
  if result.isEmpty then [] else (" and ").data

/-- The hue/saturation block of the color handler. -/
def colorHueSat (moveResult : ColorEv → Except (List Char) Unit) (a : ColorArgs)
    (result : List Char) (trace : List ColorEv) :
    Except ColorErr (List Char) × List ColorEv :=
  match a.hue, a.saturation with
  | some h, some s8 =>
    match moveResult (ColorEv.cmdHueSaturation h s8) with
    | Except.error e =>
      (Except.error (ColorErr.wrapped e), trace ++ [ColorEv.cmdHueSaturation h s8])
    | Except.ok _ =>
      colorFinish (result ++ andText result ++ ("Hue set to ").data ++ intToDec h ++
          (", Saturation set to ").data ++ intToDec s8)
        (trace ++ [ColorEv.cmdHueSaturation h s8])
  | some h, none =>
    match moveResult (ColorEv.cmdHue h) with
    | Except.error e => (Except.error (ColorErr.wrapped e), trace ++ [ColorEv.cmdHue h])
    | Except.ok _ =>
      colorFinish (result ++ andText result ++ ("Hue set to ").data ++ intToDec h)
        (trace ++ [ColorEv.cmdHue h])
  | none, some s8 =>
    match moveResult (ColorEv.cmdSaturation s8) with
    | Except.error e =>
      (Except.error (ColorErr.wrapped e), trace ++ [ColorEv.cmdSaturation s8])
    | Except.ok _ =>
      colorFinish (result ++ andText result ++ ("Saturation set to ").data ++ intToDec s8)
        (trace ++ [ColorEv.cmdSaturation s8])
  | none, none => colorFinish result trace

/-- The colorTemperature block of the color handler. -/
def colorCommands (moveResult : ColorEv → Except (List Char) Unit) (a : ColorArgs)
    (trace : List ColorEv) : Except ColorErr (List Char) × List ColorEv :=
  match a.colorTemperature with
  | some ct =>
    match moveResult (ColorEv.cmdColorTemperature ct) with
    | Except.error e =>
      (Except.error (ColorErr.wrapped e), trace ++ [ColorEv.cmdColorTemperature ct])
    | Except.ok _ =>
      colorHueSat moveResult a
        (("Color temperature set to ").data ++ intToDec ct ++ (" mireds").data)
        (trace ++ [ColorEv.cmdColorTemperature ct])
  | none => colorHueSat moveResult a [] trace

/-- handleControlColorDevice: normalize the id, connect, resolve the
endpoint and the ColorControl cluster, run the requested color commands,
and only then reject a request that carried none of the three optional
color fields. The event trace records what was done before any failure. -/
def handleControlColorDevice (connectResult : Except (List Char) (List ColorDevice))
    (moveResult : ColorEv → Except (List Char) Unit) (a : ColorArgs) :
    Except ColorErr (List Char) × List ColorEv :=
  match validateAndNormalizeNodeId a.nodeId with
  | none => (Except.error ColorErr.invalidNodeId, [])
  | some nodeIdString =>
    match connectResult with
    | Except.error e => (Except.error (ColorErr.connectFailed e), [])
    | Except.ok devices =>
      match devices.find? (fun dd => dd.number == a.endpointId) with
      | none =>
        (Except.error (ColorErr.wrapped
          (("Endpoint ").data ++ intToDec a.endpointId ++ (" not found").data)),
         [ColorEv.connected])
      | some dev =>
        if dev.hasColorControl then
          colorCommands moveResult a
            [ColorEv.connected, ColorEv.endpointResolved a.endpointId,
             ColorEv.clusterResolved]
        else
          (Except.error (ColorErr.wrapped
            (("ColorControl cluster not available on device ").data ++ nodeIdString)),
           [ColorEv.connected, ColorEv.endpointResolved a.endpointId])

/-! ### decommission_device (C8) -/

/-- The environment of decommission: the commissioned set and the outcomes
of the connect and removeNode calls of the external library (the final
disconnect step only writes logs and cannot change the result or the
commissioned set, so it is not modelled). -/
structure DecommissionEnv where
  commissioned : List Int
  connectResult : Except (List Char) Bool
  removeResult : Except (List Char) Unit

/-- The success text of decommission. -/
def decommissionSuccessText (nodeIdInput : List Char) : List Char :=
  ("Device with Node ID ").data ++ nodeIdInput ++
    (" has been decommissioned successfully.").data

/-- handleDecommissionDevice: check initialization, parse the id, verify
the node is commissioned (comparing rendered hex strings as the source
does), then best-effort connect and remove: their failures are logged and
tolerated, and the success text is returned whenever the preliminary checks
passed. Returns the result, the commissioned set after the call, and the
warnings logged. -/
def handleDecommissionDevice (isReady : Bool) (env : DecommissionEnv)
    (nodeIdInput : List Char) :
    Except (List Char) (List Char) × List Int × List (List Char) :=
  if !isReady then
    (Except.error (("Controller not initialized").data), env.commissioned, [])
  else
    match parseNodeId nodeIdInput with
    | none =>
      (Except.error (("Failed to decommission device").data), env.commissioned, [])
    | some v =>
      if !(env.commissioned.any (fun c => toHexString c == toHexString v)) then
        (Except.error (("Node ").data ++ toHexString v ++ (" is not commissioned").data),
         env.commissioned, [])
      else
        let warns1 :=
          match env.connectResult with
          | Except.error e => [("Failed to connect for decommissioning: ").data ++ e]
          | Except.ok _ => []
        match env.removeResult with
        | Except.error e =>
          (Except.ok (decommissionSuccessText nodeIdInput),
           env.commissioned,
           warns1 ++ [("Failed to remove node: ").data ++ e])
        | Except.ok _ =>
          (Except.ok (decommissionSuccessText nodeIdInput),
           env.commissioned.filter (fun c => !(c == v)),
           warns1)

/-! ### Lemmas about the identifier codec -/

theorem radixCore_append (b : Nat) (l1 l2 : List Char) (acc : Nat) :
    radixCore b (l1 ++ l2) acc =
      (radixCore b l1 acc).bind (fun a => radixCore b l2 a) := by
  induction l1 generalizing acc with
  | nil => simp [radixCore]
  | cons c cs ih =>
    simp only [List.cons_append, radixCore]
    cases h : digitValue c with
    | none => simp
    | some d =>
      by_cases hd : d < b
      · simp [hd, ih]
      · simp [hd]

theorem digitValue_hexDigitChar (d : Nat) (h : d < 16) :
    digitValue (hexDigitChar d) = some d := by
  interval_cases d <;> decide

theorem isJsWhitespace_hexDigitChar (d : Nat) (h : d < 16) :
    isJsWhitespace (hexDigitChar d) = false := by
  interval_cases d <;> decide

theorem natToDigitsAux_ne_nil (b fuel n : Nat) :
    natToDigitsAux b (fuel + 1) n ≠ [] := by
  simp only [natToDigitsAux]
  by_cases h : n < b
  · simp [h]
  · simp [h]

theorem natToDigitsAux_chars (b : Nat) (hb0 : 0 < b) (hb : b ≤ 16) :
    ∀ fuel n c, c ∈ natToDigitsAux b fuel n → ∃ d, d < 16 ∧ c = hexDigitChar d := by
  intro fuel
  induction fuel with
  | zero => intro n c hc; simp [natToDigitsAux] at hc
  | succ fuel ih =>
    intro n c hc
    simp only [natToDigitsAux] at hc
    by_cases h : n < b
    · rw [if_pos h] at hc
      simp at hc
      exact ⟨n, lt_of_lt_of_le h hb, hc⟩
    · rw [if_neg h] at hc
      rcases List.mem_append.mp hc with hc | hc
      · exact ih _ _ hc
      · simp at hc
        exact ⟨n % b, lt_of_lt_of_le (Nat.mod_lt _ hb0) hb, hc⟩

theorem radixCore_natToDigitsAux (b : Nat) (hb : 1 < b) (hb16 : b ≤ 16) :
    ∀ fuel n acc, n < b ^ fuel →
      radixCore b (natToDigitsAux b fuel n) acc =
        some (acc * b ^ (natToDigitsAux b fuel n).length + n) := by
  intro fuel
  induction fuel with
  | zero =>
    intro n acc hn
    simp only [pow_zero, Nat.lt_one_iff] at hn
    subst hn
    simp [natToDigitsAux, radixCore]
  | succ fuel ih =>
    intro n acc hn
    simp only [natToDigitsAux]
    by_cases h : n < b
    · rw [if_pos h]
      simp only [radixCore, digitValue_hexDigitChar n (lt_of_lt_of_le h hb16), if_pos h]
      simp only [List.length_singleton]
      congr 1
      ring
    · rw [if_neg h, radixCore_append]
      have hdiv : n / b < b ^ fuel := by
        rw [Nat.div_lt_iff_lt_mul (by omega)]
        calc n < b ^ (fuel + 1) := hn
          _ = b ^ fuel * b := by ring
      rw [ih (n / b) acc hdiv]
      have hmod : n % b < b := Nat.mod_lt _ (by omega)
      simp only [Option.some_bind, radixCore,
        digitValue_hexDigitChar (n % b) (lt_of_lt_of_le hmod hb16), if_pos hmod]
      congr 1
      rw [List.length_append, List.length_singleton, pow_succ]
      have hdm : b * (n / b) + n % b = n := Nat.div_add_mod n b
      calc b * (acc * b ^ (natToDigitsAux b fuel (n / b)).length + n / b) + n % b
          = acc * (b ^ (natToDigitsAux b fuel (n / b)).length * b) +
              (b * (n / b) + n % b) := by ring
        _ = acc * (b ^ (natToDigitsAux b fuel (n / b)).length * b) + n := by rw [hdm]

theorem radixCore_replicate_zero (b : Nat) (hb : 0 < b) (k : Nat) :
    radixCore b (List.replicate k '0') 0 = some 0 := by
  induction k with
  | zero => rfl
  | succ k ih =>
    have hd : digitValue '0' = some 0 := by decide
    simp only [List.replicate, radixCore, hd, if_pos hb]
    simpa using ih

theorem dropWhile_eq_self_of_all {p : Char → Bool} {s : List Char}
    (h : ∀ c ∈ s, p c = false) : s.dropWhile p = s := by
  cases s with
  | nil => rfl
  | cons a as => simp [List.dropWhile_cons, h a (by simp)]

theorem jsTrim_eq_self {s : List Char} (h : ∀ c ∈ s, isJsWhitespace c = false) :
    jsTrim s = s := by
  unfold jsTrim
  rw [dropWhile_eq_self_of_all h,
    dropWhile_eq_self_of_all (fun c hc => h c (List.mem_reverse.mp hc)),
    List.reverse_reverse]

theorem radixValue_eq_core {b : Nat} {cs : List Char} (h : cs ≠ []) :
    radixValue b cs = radixCore b cs 0 := by
  cases cs with
  | nil => exact absurd rfl h
  | cons c tl => rfl

theorem lt_sixteen_pow_succ (n : Nat) : n < 16 ^ (n + 1) :=
  lt_of_lt_of_le (Nat.lt_pow_self (by omega) n)
    (Nat.pow_le_pow_right (by omega) (Nat.le_succ n))

/-- Digits of the canonical hex rendering after the 0x marker. -/
theorem hexBody_not_ws (v : Int) (c : Char)
    (hc : c ∈ padStart 16 '0' (natToDigits 16 v.toNat)) :
    isJsWhitespace c = false := by
  unfold padStart at hc
  rcases List.mem_append.mp hc with hc | hc
  · rw [List.eq_of_mem_replicate hc]; decide
  · obtain ⟨d, hd, rfl⟩ := natToDigitsAux_chars 16 (by omega) (le_refl 16) _ _ c hc
    exact isJsWhitespace_hexDigitChar d hd

theorem jsBigInt_hexBody (v : Int) (h0 : 0 ≤ v) :
    jsBigInt ('0' :: 'x' :: padStart 16 '0' (natToDigits 16 v.toNat)) =
      some v := by
  have htrim : jsTrim ('0' :: 'x' :: padStart 16 '0' (natToDigits 16 v.toNat)) =
      '0' :: 'x' :: padStart 16 '0' (natToDigits 16 v.toNat) := by
    apply jsTrim_eq_self
    intro c hc
    rcases List.mem_cons.mp hc with rfl | hc
    · decide
    rcases List.mem_cons.mp hc with rfl | hc
    · decide
    exact hexBody_not_ws v c hc
  unfold jsBigInt
  rw [htrim]
  show jsBigIntTrimmed ('0' :: 'x' :: padStart 16 '0' (natToDigits 16 v.toNat)) = some v
  have hbody : radixValue 16 (padStart 16 '0' (natToDigits 16 v.toNat)) = some v.toNat := by
    have hne : padStart 16 '0' (natToDigits 16 v.toNat) ≠ [] := by
      unfold padStart natToDigits
      intro hemp
      exact natToDigitsAux_ne_nil 16 v.toNat v.toNat (List.append_eq_nil.mp hemp).2
    rw [radixValue_eq_core hne]
    unfold padStart natToDigits
    rw [radixCore_append, radixCore_replicate_zero 16 (by omega), Option.some_bind,
      radixCore_natToDigitsAux 16 (by omega) (le_refl 16) (v.toNat + 1) v.toNat 0
        (lt_sixteen_pow_succ v.toNat)]
    simp
  simp only [jsBigIntTrimmed]
  rw [if_pos (by decide)]
  rw [hbody]
  simp [Int.toNat_of_nonneg h0]

theorem nodeIdCheck_of_range {v : Int} (h0 : 0 ≤ v) (h1 : v < 18446744073709551616) :
    nodeIdCheck v = some v := by
  unfold nodeIdCheck
  have hb : (decide (0 ≤ v) && decide (v < 18446744073709551616)) = true := by
    rw [decide_eq_true h0, decide_eq_true h1]
    rfl
  simp only [hb, if_true]

theorem parseNodeId_toHexString (v : Int) (h0 : 0 ≤ v)
    (h1 : v < 18446744073709551616) :
    parseNodeId (toHexString v) = some v := by
  have hts : toHexString v = '0' :: 'x' :: padStart 16 '0' (natToDigits 16 v.toNat) := by
    simp [toHexString, not_lt.mpr h0]
  have key : (jsBigInt ('0' :: 'x' :: padStart 16 '0' (natToDigits 16 v.toNat))).bind
      nodeIdCheck = some v := by
    rw [jsBigInt_hexBody v h0, Option.some_bind, nodeIdCheck_of_range h0 h1]
  rw [hts]
  unfold parseNodeId
  by_cases hc : containsHexLetter ('0' :: 'x' :: padStart 16 '0' (natToDigits 16 v.toNat))
  · rw [if_pos hc]
    unfold fromHexString
    have hstrip : stripHex0x ('0' :: 'x' :: padStart 16 '0' (natToDigits 16 v.toNat)) =
        padStart 16 '0' (natToDigits 16 v.toNat) := by
      simp [stripHex0x]
    rw [hstrip]
    exact key
  · rw [if_neg hc]
    exact key

theorem bind_nodeIdCheck_range {o : Option Int} {v : Int}
    (h : o.bind nodeIdCheck = some v) : 0 ≤ v ∧ v < 18446744073709551616 := by
  cases o with
  | none => simp at h
  | some w =>
    rw [Option.some_bind] at h
    by_cases h0 : (0 : Int) ≤ w
    · by_cases h1 : w < 18446744073709551616
      · rw [nodeIdCheck_of_range h0 h1] at h
        cases h
        exact ⟨h0, h1⟩
      · simp [nodeIdCheck, h0, h1] at h
    · simp [nodeIdCheck, h0] at h

theorem parseNodeId_range {s : List Char} {v : Int}
    (h : parseNodeId s = some v) : 0 ≤ v ∧ v < 18446744073709551616 := by
  unfold parseNodeId at h
  by_cases hc : containsHexLetter s
  · rw [if_pos hc] at h
    unfold fromHexString at h
    exact bind_nodeIdCheck_range h
  · rw [if_neg hc] at h
    exact bind_nodeIdCheck_range h

/-! ### Character class facts -/

theorem isDecDigit_le {c : Char} (h : isDecDigit c = true) : '0' ≤ c ∧ c ≤ '9' := by
  simpa [isDecDigit] using h

theorem isDecDigit_not_hexLetter {c : Char} (h : isDecDigit c = true) :
    isHexLetter c = false := by
  obtain ⟨h0, h9⟩ := isDecDigit_le h
  simp only [isHexLetter, Bool.or_eq_false_iff, Bool.and_eq_false_iff,
    decide_eq_false_iff_not, not_le]
  constructor
  · left
    calc c ≤ '9' := h9
      _ < 'A' := by decide
  · left
    calc c ≤ '9' := h9
      _ < 'a' := by decide

theorem isDecDigit_ne {c : Char} (h : isDecDigit c = true) {d : Char}
    (hd : isDecDigit d = false) : c ≠ d := by
  intro heq
  rw [heq, hd] at h
  cases h

theorem isJsWhitespace_digitValue {c : Char} (h : isJsWhitespace c = true) :
    digitValue c = none := by
  simp only [isJsWhitespace, Bool.or_eq_true, decide_eq_true_eq] at h
  rcases h with ((((((rfl | rfl) | rfl) | rfl) | rfl) | rfl) | rfl) | rfl <;> decide

theorem digitValue_not_ws {c : Char} (h : (digitValue c).isSome = true) :
    isJsWhitespace c = false := by
  cases hw : isJsWhitespace c
  · rfl
  · rw [isJsWhitespace_digitValue hw] at h
    cases h

theorem isDecDigit_digitValue {c : Char} (h : isDecDigit c = true) :
    (digitValue c).isSome = true := by
  obtain ⟨h0, h9⟩ := isDecDigit_le h
  simp [digitValue, h0, h9]

theorem isDecDigit_not_ws {c : Char} (h : isDecDigit c = true) :
    isJsWhitespace c = false :=
  digitValue_not_ws (isDecDigit_digitValue h)

/-! ### The two branches of parseNodeId -/

theorem signedDecimal_not_sign {c : Char} {rest : List Char}
    (h1 : c ≠ '+') (h2 : c ≠ '-') :
    signedDecimal (c :: rest) = (radixValue 10 (c :: rest)).map (fun n => (n : Int)) := by
  rw [signedDecimal.eq_def]
  split
  · next heq =>
    injection heq with hc _
    exact absurd hc h1
  · next heq =>
    injection heq with hc _
    exact absurd hc h2
  · rfl

theorem containsHexLetter_false {s : List Char}
    (h : ∀ c ∈ s, isHexLetter c = false) : containsHexLetter s = false := by
  unfold containsHexLetter
  rw [List.any_eq_false]
  intro c hc
  simp [h c hc]

theorem jsBigIntTrimmed_decDigits {s : List Char} (hne : s ≠ [])
    (hdig : ∀ c ∈ s, isDecDigit c = true) :
    jsBigIntTrimmed s = (radixValue 10 s).map (fun n => (n : Int)) := by
  match s, hne with
  | [c1], _ =>
    have h1 := hdig c1 (by simp)
    show signedDecimal [c1] = _
    exact signedDecimal_not_sign (isDecDigit_ne h1 (by decide))
      (isDecDigit_ne h1 (by decide))
  | c1 :: c2 :: rest, _ =>
    have h1 := hdig c1 (by simp)
    have h2 := hdig c2 (by simp)
    have hx : (decide (c1 = '0') && (decide (c2 = 'x') || decide (c2 = 'X'))) = false := by
      rw [decide_eq_false (isDecDigit_ne h2 (by decide)),
        decide_eq_false (isDecDigit_ne h2 (by decide))]
      simp
    have ho : (decide (c1 = '0') && (decide (c2 = 'o') || decide (c2 = 'O'))) = false := by
      rw [decide_eq_false (isDecDigit_ne h2 (by decide)),
        decide_eq_false (isDecDigit_ne h2 (by decide))]
      simp
    have hb : (decide (c1 = '0') && (decide (c2 = 'b') || decide (c2 = 'B'))) = false := by
      rw [decide_eq_false (isDecDigit_ne h2 (by decide)),
        decide_eq_false (isDecDigit_ne h2 (by decide))]
      simp
    show jsBigIntTrimmed (c1 :: c2 :: rest) = _
    simp only [jsBigIntTrimmed, hx, ho, hb, Bool.false_eq_true, if_false]
    exact signedDecimal_not_sign (isDecDigit_ne h1 (by decide))
      (isDecDigit_ne h1 (by decide))

theorem parseNodeId_decDigits {s : List Char} (hne : s ≠ [])
    (hdig : ∀ c ∈ s, isDecDigit c = true) :
    parseNodeId s = ((radixValue 10 s).map (fun n => (n : Int))).bind nodeIdCheck := by
  have hletter : containsHexLetter s = false :=
    containsHexLetter_false (fun c hc => isDecDigit_not_hexLetter (hdig c hc))
  have htrim : jsTrim s = s := jsTrim_eq_self (fun c hc => isDecDigit_not_ws (hdig c hc))
  unfold parseNodeId
  rw [hletter]
  simp only [Bool.false_eq_true, if_false]
  unfold jsBigInt
  rw [htrim, jsBigIntTrimmed_decDigits hne hdig]

theorem parseNodeId_hexForm {s : List Char} (hs : specHexForm s = true) :
    parseNodeId s =
      ((radixValue 16 (stripHex0x s)).map (fun n => (n : Int))).bind nodeIdCheck := by
  have hs' := hs
  simp only [specHexForm, Bool.and_eq_true, Bool.not_eq_true'] at hs'
  obtain ⟨⟨hletter, _⟩, hall⟩ := hs'
  unfold parseNodeId
  rw [hletter]
  simp only [if_true]
  unfold fromHexString jsBigInt
  have htrim : jsTrim ('0' :: 'x' :: stripHex0x s) = '0' :: 'x' :: stripHex0x s := by
    apply jsTrim_eq_self
    intro c hc
    rcases List.mem_cons.mp hc with rfl | hc
    · decide
    rcases List.mem_cons.mp hc with rfl | hc
    · decide
    have hd := List.all_eq_true.mp hall c hc
    exact digitValue_not_ws (by simpa [isHexDigit] using hd)
  rw [htrim]
  simp only [jsBigIntTrimmed]
  rw [if_pos (by decide)]

theorem radixCore_mem_none {b : Nat} {l : List Char} {c : Char}
    (hc : c ∈ l) (hdv : digitValue c = none) (acc : Nat) :
    radixCore b l acc = none := by
  induction l generalizing acc with
  | nil => cases hc
  | cons a as ih =>
    rcases List.mem_cons.mp hc with rfl | hmem
    · simp [radixCore, hdv]
    · simp only [radixCore]
      cases h : digitValue a with
      | none => rfl
      | some d =>
        by_cases hd : d < b
        · simp only [if_pos hd]
          exact ih hmem _
        · simp [hd]

theorem radixValue_mem_none {b : Nat} {l : List Char} {c : Char}
    (hc : c ∈ l) (hdv : digitValue c = none) :
    radixValue b l = none := by
  cases l with
  | nil => cases hc
  | cons a as => exact radixCore_mem_none hc hdv 0

theorem signedDecimal_mem_none {l : List Char} {c : Char}
    (hc : c ∈ l) (hdv : digitValue c = none) (hp : c ≠ '+') (hm : c ≠ '-') :
    signedDecimal l = none := by
  rw [signedDecimal.eq_def]
  split
  · next rest =>
    rcases List.mem_cons.mp hc with rfl | hmem
    · exact absurd rfl hp
    · rw [radixValue_mem_none hmem hdv]; rfl
  · next rest =>
    rcases List.mem_cons.mp hc with rfl | hmem
    · exact absurd rfl hm
    · rw [radixValue_mem_none hmem hdv]; rfl
  · rw [radixValue_mem_none hc hdv]; rfl

theorem jsBigIntTrimmed_mem_none {t : List Char} {c : Char}
    (hmem : c ∈ t) (hdv : digitValue c = none)
    (hp : c ≠ '+') (hm : c ≠ '-') (hx : c ≠ 'x') (hX : c ≠ 'X')
    (ho : c ≠ 'o') (hO : c ≠ 'O') (hb : c ≠ 'b') (hB : c ≠ 'B') :
    jsBigIntTrimmed t = none := by
  have hc0 : c ≠ '0' := by
    intro heq
    rw [heq] at hdv
    exact absurd hdv (by decide)
  rw [jsBigIntTrimmed.eq_def]
  split
  · cases hmem
  · next c1 c2 rest =>
    have hmemc : c = c1 ∨ c = c2 ∨ c ∈ rest := by
      rcases List.mem_cons.mp hmem with rfl | h2
      · exact Or.inl rfl
      rcases List.mem_cons.mp h2 with rfl | h3
      · exact Or.inr (Or.inl rfl)
      · exact Or.inr (Or.inr h3)
    by_cases h1 : (c1 = '0' && (c2 = 'x' || c2 = 'X')) = true
    · rw [if_pos h1]
      simp only [Bool.and_eq_true, Bool.or_eq_true, decide_eq_true_eq] at h1
      rcases hmemc with rfl | rfl | hr
      · exact absurd h1.1 hc0
      · rcases h1.2 with h | h
        · exact absurd h hx
        · exact absurd h hX
      · rw [radixValue_mem_none hr hdv]; rfl
    rw [if_neg h1]
    by_cases h2 : (c1 = '0' && (c2 = 'o' || c2 = 'O')) = true
    · rw [if_pos h2]
      simp only [Bool.and_eq_true, Bool.or_eq_true, decide_eq_true_eq] at h2
      rcases hmemc with rfl | rfl | hr
      · exact absurd h2.1 hc0
      · rcases h2.2 with h | h
        · exact absurd h ho
        · exact absurd h hO
      · rw [radixValue_mem_none hr hdv]; rfl
    rw [if_neg h2]
    by_cases h3 : (c1 = '0' && (c2 = 'b' || c2 = 'B')) = true
    · rw [if_pos h3]
      simp only [Bool.and_eq_true, Bool.or_eq_true, decide_eq_true_eq] at h3
      rcases hmemc with rfl | rfl | hr
      · exact absurd h3.1 hc0
      · rcases h3.2 with h | h
        · exact absurd h hb
        · exact absurd h hB
      · rw [radixValue_mem_none hr hdv]; rfl
    rw [if_neg h3]
    exact signedDecimal_mem_none hmem hdv hp hm
  · exact signedDecimal_mem_none hmem hdv hp hm

/-! ### Claim theorems for the identifier codec (C3, C4, C5) -/

/-- C3: for every identifier string that the parser accepts,
validateAndNormalizeNodeId is idempotent: normalizing its own output
reproduces that output exactly. -/
theorem c3_normalize_idempotent (x y : List Char)
    (h : validateAndNormalizeNodeId x = some y) :
    validateAndNormalizeNodeId y = some y := by
  unfold validateAndNormalizeNodeId at h ⊢
  cases hp : parseNodeId x with
  | none =>
    rw [hp] at h
    exact absurd h (by simp)
  | some v =>
    rw [hp] at h
    have hy : toHexString v = y := by simpa using h
    obtain ⟨h0, h1⟩ := parseNodeId_range hp
    rw [← hy, parseNodeId_toHexString v h0 h1]
    rfl

/-- Witness for C3: the input 1A2B normalizes to 0x0000000000001a2b, and
normalizing that output is the identity on it. -/
theorem c3_normalize_idempotent_witness :
    validateAndNormalizeNodeId (("0x0000000000001a2b").data) =
      some (("0x0000000000001a2b").data) :=
  c3_normalize_idempotent (("1A2B").data) (("0x0000000000001a2b").data) (by decide)

/-- C4: an all-digit string is interpreted through the decimal branch, a
string containing a hex letter is interpreted through the hex branch, and
the two concrete inputs 6699 (decimal) and 1A2B (hex) both succeed with
the corresponding values. -/
theorem c4_parse_decimal_hex_tiebreak :
    (∀ s : List Char, s ≠ [] → (∀ c ∈ s, isDecDigit c = true) →
        parseNodeId s = ((radixValue 10 s).map (fun n => (n : Int))).bind nodeIdCheck)
    ∧ (∀ s : List Char, containsHexLetter s = true → parseNodeId s = fromHexString s)
    ∧ parseNodeId (("6699").data) = some 6699
    ∧ parseNodeId (("1A2B").data) = some 6699 := by
  refine ⟨fun s h1 h2 => parseNodeId_decDigits h1 h2, fun s hhex => ?_, by decide, by decide⟩
  unfold parseNodeId
  rw [hhex]
  simp only [if_true]

/-- Witness for C4 at the concrete all-digit input 6699. -/
theorem c4_parse_decimal_hex_tiebreak_witness :
    parseNodeId (("6699").data) =
      ((radixValue 10 (("6699").data)).map (fun n => (n : Int))).bind nodeIdCheck :=
  c4_parse_decimal_hex_tiebreak.1 (("6699").data) (by decide) (by decide)

/-- C5 counterexample: the empty string lies outside both admissible forms
of the claim (hex with a letter, pure decimal), yet parseNodeId accepts it
and returns identifier 0 instead of failing. -/
theorem c5_counterexample :
    specHexForm [] = false ∧ specDecForm [] = false ∧ parseNodeId [] = some 0 := by
  refine ⟨by decide, by decide, by decide⟩

/-- C5 (amended): parseNodeId accepts every hex-form and every decimal-form
string whose value fits in unsigned 64 bits, and every accepted value lies
in that range (so negative-number strings are rejected); however the
decimal branch follows the full platform BigInt grammar, which additionally
accepts the empty string (as 0), signed numerals, and 0x/0o/0b numerals
without hex letters, while any other character outside that grammar makes
it fail. -/
theorem c5_parse_accepts :
    (∀ s : List Char, ∀ v : Int, parseNodeId s = some v →
        0 ≤ v ∧ v < 18446744073709551616)
    ∧ (∀ s : List Char, specDecForm s = true →
        parseNodeId s = ((radixValue 10 s).map (fun n => (n : Int))).bind nodeIdCheck)
    ∧ (∀ s : List Char, specHexForm s = true →
        parseNodeId s =
          ((radixValue 16 (stripHex0x s)).map (fun n => (n : Int))).bind nodeIdCheck)
    ∧ parseNodeId [] = some 0
    ∧ (∀ s : List Char, ∀ c : Char, containsHexLetter s = false → c ∈ jsTrim s →
        digitValue c = none →
        c ≠ '+' → c ≠ '-' → c ≠ 'x' → c ≠ 'X' → c ≠ 'o' → c ≠ 'O' → c ≠ 'b' → c ≠ 'B' →
        parseNodeId s = none) := by
  refine ⟨fun s v h => parseNodeId_range h, fun s hs => ?_,
    fun s hs => parseNodeId_hexForm hs, by decide, fun s c hletter hmem hdv hp hm hx hX ho hO hb hB => ?_⟩
  · have hs' := hs
    simp only [specDecForm, Bool.and_eq_true, Bool.not_eq_true'] at hs'
    obtain ⟨hne, hall⟩ := hs'
    have hne' : s ≠ [] := by
      intro heq
      rw [heq] at hne
      cases hne
    exact parseNodeId_decDigits hne' (fun c hc => List.all_eq_true.mp hall c hc)
  · unfold parseNodeId
    rw [hletter]
    simp only [Bool.false_eq_true, if_false]
    unfold jsBigInt
    rw [jsBigIntTrimmed_mem_none hmem hdv hp hm hx hX ho hO hb hB]
    rfl

/-! ### Claim theorems for the value serializer (C6) -/

theorem toHexString_length (v : Int) : 18 ≤ (toHexString v).length := by
  unfold toHexString padStart
  simp only [List.length_cons, List.length_append, List.length_replicate]
  omega

/-- C6 counterexample: a nodeId field whose value is already a string is
passed through unchanged by the replacer, so the field is not rendered in
the codec's canonical hex form regardless of its native type: the string
hello survives as is, and it is not the hex rendering of any identifier. -/
theorem c6_counterexample :
    replaceVal (("nodeId").data) (.vstr (("hello").data)) =
      some (.vstr (("hello").data))
    ∧ ¬ ∃ n : Int, JsValue.vstr (("hello").data) = .vstr (toHexString n) := by
  refine ⟨rfl, ?_⟩
  rintro ⟨n, hn⟩
  injection hn with hs
  have hlen : (("hello").data).length = (toHexString n).length := by rw [hs]
  have h18 := toHexString_length n
  rw [← hlen] at h18
  exact absurd h18 (by decide)

/-- C6 (amended): serializeJson renders, recursively through containers, a
nodeId field via the canonical hex form whenever its value is not already a
string (string values pass through unchanged); every bigint outside a
nodeId field becomes its decimal string, every byte array a lowercase hex
string, and every undefined value the literal string placeholder, which is
distinct from the rendering of null. -/
theorem c6_serializeJson_rendering :
    (∀ n : Int, replaceVal (("nodeId").data) (.vnum n) = some (.vstr (toHexString n)))
    ∧ (∀ n : Int, replaceVal (("nodeId").data) (.vbig n) = some (.vstr (toHexString n)))
    ∧ (∀ s : List Char, replaceVal (("nodeId").data) (.vstr s) = some (.vstr s))
    ∧ (∀ k : List Char, ∀ n : Int, k ≠ (("nodeId").data) →
        replaceVal k (.vbig n) = some (.vstr (intToDec n)))
    ∧ (∀ k : List Char, ∀ bs : List Nat, k ≠ (("nodeId").data) →
        replaceVal k (.vbytes bs) = some (.vstr (bytesToHex bs)))
    ∧ (∀ k : List Char, k ≠ (("nodeId").data) →
        replaceVal k .vundef = some (.vstr (("undefined").data)))
    ∧ serializeJson (.vobj (jobj [(("a").data, .vundef), (("b").data, .vnull)])) =
        some (("\x7b\"a\":\"undefined\",\"b\":null\x7d").data)
    ∧ serializeJson (.vobj (jobj
        [(("x").data, .varr (jarr [.vbig 18446744073709551615, .vbytes [255, 0]])),
         (("nodeId").data, .vnum 6699)])) =
        some (("\x7b\"x\":[\"18446744073709551615\",\"ff00\"],\"nodeId\":\"0x0000000000001a2b\"\x7d").data) := by
  refine ⟨fun n => rfl, fun n => rfl, fun s => rfl, fun k n hk => ?_, fun k bs hk => ?_,
    fun k hk => ?_, by decide, by decide⟩
  · simp [replaceVal, hk]
  · simp [replaceVal, hk]
  · simp [replaceVal, hk]

/-- Witness for C6 (amended) at a concrete non-nodeId byte-array field. -/
theorem c6_serializeJson_rendering_witness :
    replaceVal (("a").data) (.vbytes [255, 0]) =
      some (.vstr (bytesToHex [255, 0])) :=
  c6_serializeJson_rendering.2.2.2.2.1 (("a").data) [255, 0] (by decide)

/-! ### Lemmas for the duplicate-attribute filter (C9) -/

theorem filterLoop_cons_shape (b : Bool) (seen : List (List Char)) (line : List Char)
    (rest : List (List Char)) :
    (∃ b2 s2, filterLoop b seen (line :: rest) = line :: filterLoop b2 s2 rest)
    ∨ (isAttrLine line = true ∧ filterLoop b seen (line :: rest) = filterLoop b seen rest) := by
  rw [filterLoop]
  by_cases h1 : (jsTrim line == ("attributes").data) = true
  · rw [if_pos h1]
    exact Or.inl ⟨true, [], rfl⟩
  rw [if_neg h1]
  by_cases h2 : (b && exitsAttributes line (jsTrim line)) = true
  · rw [if_pos h2]
    exact Or.inl ⟨false, [], rfl⟩
  rw [if_neg h2]
  by_cases h3 : (b && containsSub ((" id: 0x").data) (jsTrim line)) = true
  · rw [if_pos h3]
    cases hm : attrMatch (jsTrim line) with
    | none =>
      simp only [hm]
      exact Or.inl ⟨b, seen, rfl⟩
    | some p =>
      simp only [hm]
      by_cases h4 : (seen.contains (attrKey p)) = true
      · rw [if_pos h4]
        refine Or.inr ⟨?_, rfl⟩
        rw [Bool.and_eq_true] at h3
        simp [isAttrLine, h3.2, hm]
      · rw [if_neg h4]
        exact Or.inl ⟨b, attrKey p :: seen, rfl⟩
  · rw [if_neg h3]
    exact Or.inl ⟨b, seen, rfl⟩

theorem filterLoop_sublist :
    ∀ (ls : List (List Char)) (b : Bool) (seen : List (List Char)),
      List.Sublist (filterLoop b seen ls) ls := by
  intro ls
  induction ls with
  | nil =>
    intro b seen
    rw [filterLoop]
  | cons line rest ih =>
    intro b seen
    rcases filterLoop_cons_shape b seen line rest with ⟨b2, s2, heq⟩ | ⟨_, heq⟩
    · rw [heq]
      exact List.Sublist.cons₂ _ (ih b2 s2)
    · rw [heq]
      exact List.Sublist.cons _ (ih b seen)

theorem filterLoop_keeps_nonattr :
    ∀ (ls : List (List Char)) (b : Bool) (seen : List (List Char)),
      List.Sublist (ls.filter (fun l => !(isAttrLine l))) (filterLoop b seen ls) := by
  intro ls
  induction ls with
  | nil =>
    intro b seen
    rw [filterLoop]
    simp only [List.filter_nil]
    exact List.Sublist.slnil
  | cons line rest ih =>
    intro b seen
    rw [List.filter_cons]
    rcases filterLoop_cons_shape b seen line rest with ⟨b2, s2, heq⟩ | ⟨hA, heq⟩
    · rw [heq]
      by_cases hA : isAttrLine line = true
      · rw [if_neg (by simp [hA])]
        exact List.Sublist.cons _ (ih b2 s2)
      · rw [if_pos (by simp [Bool.not_eq_true] at hA ⊢; exact hA)]
        exact List.Sublist.cons₂ _ (ih b2 s2)
    · rw [heq, if_neg (by simp [hA])]
      exact ih b seen

theorem filterLoop_dedupOK :
    ∀ (ls : List (List Char)) (b : Bool) (seen : List (List Char)),
      dedupOK b seen (filterLoop b seen ls) = true := by
  intro ls
  induction ls with
  | nil =>
    intro b seen
    rw [filterLoop, dedupOK]
  | cons line rest ih =>
    intro b seen
    rw [filterLoop]
    by_cases h1 : (jsTrim line == ("attributes").data) = true
    · rw [if_pos h1, dedupOK, if_pos h1]
      exact ih true []
    rw [if_neg h1]
    by_cases h2 : (b && exitsAttributes line (jsTrim line)) = true
    · rw [if_pos h2, dedupOK, if_neg h1, if_pos h2]
      exact ih false []
    rw [if_neg h2]
    by_cases h3 : (b && containsSub ((" id: 0x").data) (jsTrim line)) = true
    · rw [if_pos h3]
      cases hm : attrMatch (jsTrim line) with
      | none =>
        simp only [hm]
        rw [dedupOK, if_neg h1, if_neg h2, if_pos h3]
        simp only [hm]
        exact ih b seen
      | some p =>
        simp only [hm]
        by_cases h4 : (seen.contains (attrKey p)) = true
        · rw [if_pos h4]
          exact ih b seen
        · rw [if_neg h4]
          rw [dedupOK, if_neg h1, if_neg h2, if_pos h3]
          simp only [hm]
          have h4f : seen.contains (attrKey p) = false := by
            cases hcon : seen.contains (attrKey p)
            · rfl
            · exact absurd hcon h4
          rw [ih b (attrKey p :: seen), h4f]
          rfl
    · rw [if_neg h3, dedupOK, if_neg h1, if_neg h2, if_neg h3]
      exact ih b seen

theorem filterLoop_idem :
    ∀ (ls : List (List Char)) (b : Bool) (seen : List (List Char)),
      filterLoop b seen (filterLoop b seen ls) = filterLoop b seen ls := by
  intro ls
  induction ls with
  | nil =>
    intro b seen
    rw [filterLoop, filterLoop]
  | cons line rest ih =>
    intro b seen
    rw [filterLoop]
    by_cases h1 : (jsTrim line == ("attributes").data) = true
    · rw [if_pos h1, filterLoop, if_pos h1, ih true []]
    rw [if_neg h1]
    by_cases h2 : (b && exitsAttributes line (jsTrim line)) = true
    · rw [if_pos h2, filterLoop, if_neg h1, if_pos h2, ih false []]
    rw [if_neg h2]
    by_cases h3 : (b && containsSub ((" id: 0x").data) (jsTrim line)) = true
    · rw [if_pos h3]
      cases hm : attrMatch (jsTrim line) with
      | none =>
        simp only [hm]
        rw [filterLoop, if_neg h1, if_neg h2, if_pos h3]
        simp only [hm]
        rw [ih b seen]
      | some p =>
        simp only [hm]
        by_cases h4 : (seen.contains (attrKey p)) = true
        · rw [if_pos h4]
          exact ih b seen
        · rw [if_neg h4]
          rw [filterLoop, if_neg h1, if_neg h2, if_pos h3]
          simp only [hm]
          rw [if_neg h4, ih b (attrKey p :: seen)]
    · rw [if_neg h3, filterLoop, if_neg h1, if_neg h2, if_neg h3, ih b seen]

theorem splitNl_ne_nil (s : List Char) : splitNl s ≠ [] := by
  cases s with
  | nil => simp [splitNl]
  | cons c rest =>
    rw [splitNl]
    by_cases h : c = '\n'
    · simp [h]
    · rw [if_neg h]
      cases hs : splitNl rest with
      | nil => simp
      | cons l ls => simp

theorem mem_splitNl_no_nl : ∀ (s : List Char), ∀ l ∈ splitNl s, '\n' ∉ l := by
  intro s
  induction s with
  | nil =>
    intro l hl
    simp [splitNl] at hl
    subst hl
    simp
  | cons c rest ih =>
    intro l hl
    rw [splitNl] at hl
    by_cases h : c = '\n'
    · rw [if_pos h] at hl
      rcases List.mem_cons.mp hl with rfl | hl
      · simp
      · exact ih l hl
    · rw [if_neg h] at hl
      cases hs : splitNl rest with
      | nil => exact absurd hs (splitNl_ne_nil rest)
      | cons l0 ls =>
        rw [hs] at hl
        rcases List.mem_cons.mp hl with rfl | hl2
        · intro hmem
          rcases List.mem_cons.mp hmem with heq | hmem2
          · exact h heq.symm
          · exact ih l0 (by rw [hs]; exact List.mem_cons_self l0 ls) hmem2
        · exact ih l (by rw [hs]; exact List.mem_cons_of_mem l0 hl2)

theorem splitNl_no_nl_self : ∀ (l : List Char), '\n' ∉ l → splitNl l = [l] := by
  intro l
  induction l with
  | nil => intro _; rfl
  | cons c rest ih =>
    intro h
    have hc : ¬ c = '\n' := fun heq => h (by rw [heq]; exact List.mem_cons_self _ _)
    rw [splitNl, if_neg hc, ih (fun hm => h (List.mem_cons_of_mem _ hm))]

theorem splitNl_append_nl : ∀ (l t : List Char), '\n' ∉ l →
    splitNl (l ++ '\n' :: t) = l :: splitNl t := by
  intro l
  induction l with
  | nil =>
    intro t _
    simp only [List.nil_append]
    rw [splitNl, if_pos rfl]
  | cons c rest ih =>
    intro t h
    have hc : ¬ c = '\n' := fun heq => h (by rw [heq]; exact List.mem_cons_self _ _)
    rw [List.cons_append, splitNl, if_neg hc,
      ih t (fun hm => h (List.mem_cons_of_mem _ hm))]

theorem splitNl_joinNl : ∀ (ls : List (List Char)), ls ≠ [] →
    (∀ l ∈ ls, '\n' ∉ l) → splitNl (joinNl ls) = ls := by
  intro ls
  induction ls with
  | nil => intro h _; exact absurd rfl h
  | cons l ls2 ih =>
    intro _ hfree
    cases ls2 with
    | nil =>
      rw [joinNl]
      exact splitNl_no_nl_self l (hfree l (List.mem_cons_self _ _))
    | cons l2 ls3 =>
      rw [joinNl, splitNl_append_nl _ _ (hfree l (List.mem_cons_self _ _)),
        ih (List.cons_ne_nil l2 ls3) (fun x hx => hfree x (List.mem_cons_of_mem _ hx))]
      exact fun hemp => List.cons_ne_nil l2 ls3 hemp

theorem filterLoop_false_cons (seen : List (List Char)) (line : List Char)
    (rest : List (List Char)) :
    ∃ b2 s2, filterLoop false seen (line :: rest) = line :: filterLoop b2 s2 rest := by
  rw [filterLoop]
  by_cases h1 : (jsTrim line == ("attributes").data) = true
  · rw [if_pos h1]
    exact ⟨true, [], rfl⟩
  rw [if_neg h1, if_neg (by simp), if_neg (by simp)]
  exact ⟨false, seen, rfl⟩

/-! ### Claim theorem for the structure diagnostics formatter (C9) -/

/-- C9: the duplicate-attribute post-filter only ever drops lines (its line
list output is a sublist of its input), it keeps every line it does not
recognize as an attribute line, within each attributes block (with the
boundary and reset rules of the code) no kept attribute key repeats, and
consequently the whole text-level filter is idempotent. -/
theorem c9_filterDuplicateAttributes (s : List Char) :
    filterDuplicateAttributes (filterDuplicateAttributes s) = filterDuplicateAttributes s
    ∧ List.Sublist (filterLoop false [] (splitNl s)) (splitNl s)
    ∧ List.Sublist ((splitNl s).filter (fun l => !(isAttrLine l)))
        (filterLoop false [] (splitNl s))
    ∧ dedupOK false [] (filterLoop false [] (splitNl s)) = true := by
  refine ⟨?_, filterLoop_sublist _ _ _, filterLoop_keeps_nonattr _ _ _,
    filterLoop_dedupOK _ _ _⟩
  unfold filterDuplicateAttributes
  have hout_ne : filterLoop false [] (splitNl s) ≠ [] := by
    cases hs : splitNl s with
    | nil => exact absurd hs (splitNl_ne_nil s)
    | cons l rest =>
      obtain ⟨b2, s2, heq⟩ := filterLoop_false_cons [] l rest
      rw [heq]
      simp
  have hfree : ∀ l ∈ filterLoop false [] (splitNl s), '\n' ∉ l := fun l hl =>
    mem_splitNl_no_nl s l ((filterLoop_sublist (splitNl s) false []).subset hl)
  rw [splitNl_joinNl _ hout_ne hfree, filterLoop_idem]

/-- Witness for C5 (amended): the letter-free input 12;4 contains the
non-grammar character ; and is rejected. -/
theorem c5_parse_accepts_witness : parseNodeId (("12;4").data) = none :=
  c5_parse_accepts.2.2.2.2 (("12;4").data) ';' (by decide) (by decide) (by decide)
    (by decide) (by decide) (by decide) (by decide) (by decide) (by decide)
    (by decide) (by decide)

/-! ### Claim theorems for read_attributes (C1, C10) -/

/-- C1 counterexample: with only attribute id 1 present on the pair,
requesting [0, 1] and requesting [1] produce identical successful
responses even though the two requests have different absent-id sets
(the list of requested-but-absent ids is written to the log only), so the
response carries no warning annotation listing the absent ids. -/
theorem c1_counterexample :
    (handleReadAttributes (("0x0000000000000001").data)
        [{ path := { endpointId := 1, clusterId := 6, attributeId := 1 },
           value := 7, version := 0 }]
        { endpointId := 1, clusterId := 6, attributeIds := some [0, 1] }).1 =
      (handleReadAttributes (("0x0000000000000001").data)
        [{ path := { endpointId := 1, clusterId := 6, attributeId := 1 },
           value := 7, version := 0 }]
        { endpointId := 1, clusterId := 6, attributeIds := some [1] }).1
    ∧ (handleReadAttributes (("0x0000000000000001").data)
        [{ path := { endpointId := 1, clusterId := 6, attributeId := 1 },
           value := 7, version := 0 }]
        { endpointId := 1, clusterId := 6, attributeIds := some [0, 1] }).2 =
        [missingWarnText [0]]
    ∧ (handleReadAttributes (("0x0000000000000001").data)
        [{ path := { endpointId := 1, clusterId := 6, attributeId := 1 },
           value := 7, version := 0 }]
        { endpointId := 1, clusterId := 6, attributeIds := some [1] }).2 = []
    ∧ (handleReadAttributes (("0x0000000000000001").data)
        [{ path := { endpointId := 1, clusterId := 6, attributeId := 1 },
           value := 7, version := 0 }]
        { endpointId := 1, clusterId := 6, attributeIds := some [0, 1] }).1 =
        Except.ok
          { nodeId := ("0x0000000000000001").data, endpointId := 1, clusterId := 6,
            attributes := [{ id := 1, value := 7, version := 0 }] } := by
  refine ⟨rfl, rfl, rfl, rfl⟩

/-- C1 (amended): when a non-empty attributeIds list is provided and at
least one requested attribute exists on the pair, the call succeeds with
exactly one result entry per found attribute, and the requested-but-absent
ids are reported through a logged warning rather than in the response; the
not-found error is raised exactly when the entire filtered set is empty
(with the warning listing every requested id still logged). -/
theorem c1_read_partial_warning (n : List Char) (A : List AttrEntry) (ep cl : Int)
    (ids : List Int) (hne : ids ≠ []) :
    (foundAttributesOf A ep cl ids ≠ [] →
      handleReadAttributes n A { endpointId := ep, clusterId := cl, attributeIds := some ids } =
        (Except.ok
          { nodeId := n, endpointId := ep, clusterId := cl,
            attributes := (foundAttributesOf A ep cl ids).map (fun attr =>
              { id := attr.path.attributeId, value := attr.value,
                version := attr.version }) },
         if (missingIdsOf A ep cl ids).length > 0 then
           [missingWarnText (missingIdsOf A ep cl ids)]
         else []))
    ∧ (foundAttributesOf A ep cl ids = [] →
      handleReadAttributes n A { endpointId := ep, clusterId := cl, attributeIds := some ids } =
        (Except.error (("No requested attributes found on endpoint ").data ++ intToDec ep ++
          (" of cluster ").data ++ intToDec cl),
         [missingWarnText (missingIdsOf A ep cl ids)])) := by
  have hlen : ids.length > 0 := List.length_pos.mpr hne
  constructor
  · intro hfound
    have hfl : ((foundAttributesOf A ep cl ids).length == 0) = false := by
      simp [List.length_eq_zero, hfound]
    simp [handleReadAttributes, if_pos hlen, hfl]
  · intro hfound
    have hmiss : missingIdsOf A ep cl ids = ids := by
      unfold missingIdsOf
      rw [hfound]
      simp
    have hmlen : (missingIdsOf A ep cl ids).length > 0 := by
      rw [hmiss]
      exact hlen
    have hfl : ((foundAttributesOf A ep cl ids).length == 0) = true := by
      simp [hfound]
    simp [handleReadAttributes, if_pos hlen, hfl, if_pos hmlen]

/-- Witness for C1 (amended) at a concrete device where only attribute 1
of the requested [0, 1] exists. -/
theorem c1_read_partial_warning_witness :
    handleReadAttributes (("n").data)
        [{ path := { endpointId := 1, clusterId := 8, attributeId := 1 },
           value := 3, version := 2 }]
        { endpointId := 1, clusterId := 8, attributeIds := some [0, 1] } =
      (Except.ok
        { nodeId := ("n").data, endpointId := 1, clusterId := 8,
          attributes := (foundAttributesOf
            [{ path := { endpointId := 1, clusterId := 8, attributeId := 1 },
               value := 3, version := 2 }] 1 8 [0, 1]).map (fun attr =>
              { id := attr.path.attributeId, value := attr.value,
                version := attr.version }) },
       if (missingIdsOf
            [{ path := { endpointId := 1, clusterId := 8, attributeId := 1 },
               value := 3, version := 2 }] 1 8 [0, 1]).length > 0 then
         [missingWarnText (missingIdsOf
            [{ path := { endpointId := 1, clusterId := 8, attributeId := 1 },
               value := 3, version := 2 }] 1 8 [0, 1])]
       else []) :=
  (c1_read_partial_warning (("n").data)
    [{ path := { endpointId := 1, clusterId := 8, attributeId := 1 },
       value := 3, version := 2 }] 1 8 [0, 1] (by decide)).1 (by decide)

/-- C10: an empty attributeIds list behaves exactly as an omitted one: the
identical successful full-cluster response whenever the cluster reports any
attribute; in the empty-cluster case both forms raise the not-found error
(the empty-list form with the request-specific message). -/
theorem c10_read_empty_ids (n : List Char) (A : List AttrEntry) (ep cl : Int) :
    (clusterAttributesOf A ep cl ≠ [] →
      handleReadAttributes n A { endpointId := ep, clusterId := cl, attributeIds := some [] } =
        handleReadAttributes n A { endpointId := ep, clusterId := cl, attributeIds := none })
    ∧ (clusterAttributesOf A ep cl = [] →
      (handleReadAttributes n A { endpointId := ep, clusterId := cl, attributeIds := some [] }).1 =
        Except.error (("No requested attributes found on endpoint ").data ++ intToDec ep ++
          (" of cluster ").data ++ intToDec cl)
      ∧ (handleReadAttributes n A { endpointId := ep, clusterId := cl, attributeIds := none }).1 =
        Except.error (("No attributes found on endpoint ").data ++ intToDec ep ++
          (" of cluster ").data ++ intToDec cl)) := by
  constructor
  · intro hne
    have hfl : ((clusterAttributesOf A ep cl).length == 0) = false := by
      simp [List.length_eq_zero, hne]
    simp [handleReadAttributes, hfl]
  · intro hemp
    have hfl : ((clusterAttributesOf A ep cl).length == 0) = true := by
      simp [hemp]
    constructor
    · simp [handleReadAttributes, hfl]
    · simp [handleReadAttributes, hfl]

/-- Witness for C10 at a concrete one-attribute cluster. -/
theorem c10_read_empty_ids_witness :
    handleReadAttributes (("n").data)
        [{ path := { endpointId := 1, clusterId := 6, attributeId := 0 },
           value := 1, version := 0 }]
        { endpointId := 1, clusterId := 6, attributeIds := some [] } =
      handleReadAttributes (("n").data)
        [{ path := { endpointId := 1, clusterId := 6, attributeId := 0 },
           value := 1, version := 0 }]
        { endpointId := 1, clusterId := 6, attributeIds := none } :=
  (c10_read_empty_ids (("n").data)
    [{ path := { endpointId := 1, clusterId := 6, attributeId := 0 },
       value := 1, version := 0 }] 1 6).1 (by decide)

/-! ### Claim theorems for control_color_device (C7) -/

/-- C7 counterexample: a request with none of the three optional color
fields does fail, but only after the device connection is established and
the endpoint and ColorControl cluster are resolved, as the recorded event
trace shows; no work-free fast failure happens. -/
theorem c7_counterexample :
    handleControlColorDevice (Except.ok [{ number := 1, hasColorControl := true }])
        (fun _ => Except.ok ())
        { nodeId := ("1A").data, colorTemperature := none, hue := none,
          saturation := none, endpointId := 1 } =
      (Except.error (ColorErr.wrapped
        (("At least one color parameter (colorTemperature, hue, or saturation) must be provided").data)),
       [ColorEv.connected, ColorEv.endpointResolved 1, ColorEv.clusterResolved]) := by
  rfl

/-- C7 (amended): whenever a request with none of the three optional color
fields reaches a device on which the endpoint and ColorControl cluster
resolve, the handler fails with the missing-parameter error wrapped in the
uniform envelope, but only after connecting and resolving the endpoint and
cluster, and without issuing any color command. -/
theorem c7_color_missing_arg_after_work (devices : List ColorDevice)
    (moveResult : ColorEv → Except (List Char) Unit) (a : ColorArgs)
    (nodeIdString : List Char) (d : ColorDevice)
    (hv : validateAndNormalizeNodeId a.nodeId = some nodeIdString)
    (hct : a.colorTemperature = none) (hh : a.hue = none) (hs : a.saturation = none)
    (hd : devices.find? (fun dd => dd.number == a.endpointId) = some d)
    (hcc : d.hasColorControl = true) :
    handleControlColorDevice (Except.ok devices) moveResult a =
      (Except.error (ColorErr.wrapped
        (("At least one color parameter (colorTemperature, hue, or saturation) must be provided").data)),
       [ColorEv.connected, ColorEv.endpointResolved a.endpointId,
        ColorEv.clusterResolved]) := by
  unfold handleControlColorDevice
  rw [hv]
  simp only []
  rw [hd]
  simp only [hcc, if_true]
  unfold colorCommands
  rw [hct]
  simp only []
  unfold colorHueSat
  rw [hh, hs]
  rfl

/-- Witness for C7 (amended) at a second concrete device. -/
theorem c7_color_missing_arg_after_work_witness :
    handleControlColorDevice (Except.ok [{ number := 2, hasColorControl := true }])
        (fun _ => Except.ok ())
        { nodeId := ("2B").data, colorTemperature := none, hue := none,
          saturation := none, endpointId := 2 } =
      (Except.error (ColorErr.wrapped
        (("At least one color parameter (colorTemperature, hue, or saturation) must be provided").data)),
       [ColorEv.connected, ColorEv.endpointResolved 2, ColorEv.clusterResolved]) :=
  c7_color_missing_arg_after_work [{ number := 2, hasColorControl := true }]
    (fun _ => Except.ok ())
    { nodeId := ("2B").data, colorTemperature := none, hue := none,
      saturation := none, endpointId := 2 }
    (("0x000000000000002b").data) { number := 2, hasColorControl := true }
    (by decide) rfl rfl rfl (by decide) rfl

/-! ### Claim theorems for decommission_device (C8) -/

/-- C8 counterexample: with node 5 commissioned and the removeNode call of
the external library failing, the handler still returns the success
response while the commissioned set is unchanged (the failure is only
logged), so a successful decommission response does not imply removal. -/
theorem c8_counterexample :
    handleDecommissionDevice true
        { commissioned := [5], connectResult := Except.ok true,
          removeResult := Except.error (("refused").data) } (("5").data) =
      (Except.ok (decommissionSuccessText (("5").data)), [5],
       [("Failed to remove node: refused").data]) := by
  rfl

/-- C8 (amended): the success response is returned exactly when the node
was commissioned at entry (given an initialized controller and a parsable
id); the identifier is removed from the commissioned set only when the
removeNode call succeeded, and is left in place when it failed, the
success response notwithstanding. -/
theorem c8_decommission_success_without_removal (env : DecommissionEnv)
    (input : List Char) (v : Int) (hp : parseNodeId input = some v) :
    (env.commissioned.any (fun c => toHexString c == toHexString v) = true →
      (handleDecommissionDevice true env input).1 =
          Except.ok (decommissionSuccessText input)
        ∧ (handleDecommissionDevice true env input).2.1 =
            (match env.removeResult with
             | Except.ok _ => env.commissioned.filter (fun c => !(c == v))
             | Except.error _ => env.commissioned))
    ∧ (env.commissioned.any (fun c => toHexString c == toHexString v) = false →
      (handleDecommissionDevice true env input).1 =
          Except.error (("Node ").data ++ toHexString v ++ (" is not commissioned").data)
        ∧ (handleDecommissionDevice true env input).2.1 = env.commissioned) := by
  constructor
  · intro hmem
    unfold handleDecommissionDevice
    rw [hp]
    simp only [hmem, Bool.not_true, Bool.false_eq_true, if_false]
    cases env.removeResult with
    | ok u => exact ⟨rfl, rfl⟩
    | error e => exact ⟨rfl, rfl⟩
  · intro hmem
    unfold handleDecommissionDevice
    rw [hp]
    simp only [hmem, Bool.not_false, if_true]
    exact ⟨rfl, rfl⟩

/-- Witness for C8 (amended): node 7 commissioned, removal succeeding. -/
theorem c8_decommission_success_without_removal_witness :
    (handleDecommissionDevice true
        { commissioned := [7], connectResult := Except.ok true,
          removeResult := Except.ok () } (("7").data)).1 =
      Except.ok (decommissionSuccessText (("7").data))
    ∧ (handleDecommissionDevice true
        { commissioned := [7], connectResult := Except.ok true,
          removeResult := Except.ok () } (("7").data)).2.1 =
      (match (Except.ok () : Except (List Char) Unit) with
       | Except.ok _ => [7].filter (fun c => !(c == (7 : Int)))
       | Except.error _ => [7]) :=
  (c8_decommission_success_without_removal
    { commissioned := [7], connectResult := Except.ok true,
      removeResult := Except.ok () } (("7").data) 7 (by decide)).1 (by decide)

/-! ### Lemmas for write_attributes (C2) -/

theorem writeLoop_trace (setAttr : Option Int → Int → Except (List Char) Unit) :
    ∀ (es : List (List Char × Int)) (acc : List (Option Int × WriteItemResult)),
      (writeLoop setAttr es acc).2 = es.map (fun p => (jsParseInt p.1, p.2)) := by
  intro es
  induction es with
  | nil => intro acc; rfl
  | cons p rest ih =>
    intro acc
    obtain ⟨k, v⟩ := p
    simp only [writeLoop, List.map_cons]
    rw [ih]

theorem upsertResult_keys (k : Option Int) (v : WriteItemResult) :
    ∀ (m : List (Option Int × WriteItemResult)),
      (upsertResult m k v).map Prod.fst =
        if k ∈ m.map Prod.fst then m.map Prod.fst else m.map Prod.fst ++ [k] := by
  intro m
  induction m with
  | nil => simp [upsertResult]
  | cons p rest ih =>
    obtain ⟨k1, v1⟩ := p
    by_cases h : k1 = k
    · subst h
      have hb : (k1 == k1) = true := by simp
      simp [upsertResult, hb]
    · have hb : (k1 == k) = false := by simp [h]
      simp only [upsertResult, hb, Bool.false_eq_true, if_false, List.map_cons, ih]
      by_cases hmem : k ∈ rest.map Prod.fst
      · simp [hmem, Ne.symm h]
      · simp [hmem, Ne.symm h]

theorem lookupRes_upsert (k : Option Int) (v : WriteItemResult) :
    ∀ (m : List (Option Int × WriteItemResult)) (j : Option Int),
      lookupRes (upsertResult m k v) j = if k = j then some v else lookupRes m j := by
  intro m
  induction m with
  | nil =>
    intro j
    by_cases h : k = j
    · subst h; simp [upsertResult, lookupRes]
    · simp [upsertResult, lookupRes, h]
  | cons p rest ih =>
    intro j
    obtain ⟨k1, v1⟩ := p
    by_cases h : k1 = k
    · subst h
      have hb : (k1 == k1) = true := by simp
      by_cases hj : k1 = j
      · subst hj
        simp [upsertResult, lookupRes, hb]
      · have hbj : (k1 == j) = false := by simp [hj]
        simp [upsertResult, lookupRes, hb, hbj, hj]
    · have hb : (k1 == k) = false := by simp [h]
      by_cases hj : k1 = j
      · subst hj
        have hkj : ¬ k = k1 := fun heq => h heq.symm
        simp [upsertResult, lookupRes, hb, hkj]
      · have hbj : (k1 == j) = false := by simp [hj]
        simp only [upsertResult, hb, Bool.false_eq_true, if_false, lookupRes, hbj, ih]

theorem lookupRes_not_mem :
    ∀ (m : List (Option Int × WriteItemResult)) (k : Option Int),
      k ∉ m.map Prod.fst → lookupRes m k = none := by
  intro m
  induction m with
  | nil => intro k _; rfl
  | cons p rest ih =>
    intro k hk
    obtain ⟨k1, v1⟩ := p
    simp only [List.map_cons, List.mem_cons] at hk
    push_neg at hk
    have hb : (k1 == k) = false := by simp [Ne.symm hk.1]
    simp only [lookupRes, hb, Bool.false_eq_true, if_false]
    exact ih k hk.2

theorem dedupFirst_mem : ∀ (l : List (Option Int)) (k : Option Int),
    k ∈ dedupFirst l ↔ k ∈ l := by
  intro l
  induction l with
  | nil => intro k; simp [dedupFirst]
  | cons x xs ih =>
    intro k
    simp only [dedupFirst, List.mem_cons]
    by_cases h : k = x
    · subst h
      simp
    · constructor
      · rintro (rfl | hmem)
        · exact Or.inl rfl
        · exact Or.inr ((ih k).mp (List.mem_filter.mp hmem).1)
      · rintro (rfl | hmem)
        · exact Or.inl rfl
        · refine Or.inr (List.mem_filter.mpr ⟨(ih k).mpr hmem, ?_⟩)
          simp [h]

theorem dedupFirst_nodup : ∀ (l : List (Option Int)), (dedupFirst l).Nodup := by
  intro l
  induction l with
  | nil => exact List.nodup_nil
  | cons x xs ih =>
    refine List.Nodup.cons ?_ (List.Nodup.filter _ ih)
    intro hmem
    have := (List.mem_filter.mp hmem).2
    simp at this

theorem writeLoop_keys (setAttr : Option Int → Int → Except (List Char) Unit) :
    ∀ (es : List (List Char × Int)) (acc : List (Option Int × WriteItemResult)),
      ((writeLoop setAttr es acc).1.map Prod.fst) =
        acc.map Prod.fst ++ (dedupFirst (es.map (fun p => jsParseInt p.1))).filter
          (fun k => !(decide (k ∈ acc.map Prod.fst))) := by
  intro es
  induction es with
  | nil =>
    intro acc
    simp [writeLoop, dedupFirst]
  | cons p rest ih =>
    intro acc
    obtain ⟨k0, v0⟩ := p
    simp only [writeLoop, List.map_cons, dedupFirst]
    rw [ih, upsertResult_keys]
    by_cases hmem : jsParseInt k0 ∈ acc.map Prod.fst
    · rw [if_pos hmem, List.filter_cons]
      have hc : (!(decide (jsParseInt k0 ∈ acc.map Prod.fst))) = false := by
        simp [hmem]
      rw [hc]
      simp only [Bool.false_eq_true, if_false, List.filter_filter]
      congr 1
      apply List.filter_congr
      intro a _
      by_cases ha : a ∈ acc.map Prod.fst
      · simp [ha]
      · have hne : (a == jsParseInt k0) = false := by
          have : a ≠ jsParseInt k0 := fun heq => ha (heq ▸ hmem)
          simp [this]
        simp [ha, hne]
    · rw [if_neg hmem, List.filter_cons]
      have hc : (!(decide (jsParseInt k0 ∈ acc.map Prod.fst))) = true := by
        simp [hmem]
      rw [hc]
      simp only [if_true, List.filter_filter, List.append_assoc, List.singleton_append]
      congr 2
      apply List.filter_congr
      intro a _
      by_cases ha : a = jsParseInt k0
      · subst ha
        simp
      · have hb : (a == jsParseInt k0) = false := by simp [ha]
        simp [hb, ha, hmem]

theorem lastValueFor_cons_ne (k0 : List Char) (v0 : Int)
    (rest : List (List Char × Int)) (k : Option Int)
    (h : ¬ jsParseInt k0 = k) :
    lastValueFor ((k0, v0) :: rest) k = lastValueFor rest k := by
  unfold lastValueFor
  rw [List.filter_cons]
  have hb : ((jsParseInt k0 == k) : Bool) = false := by simp [h]
  simp [hb]

theorem filter_eq_nil_of_not_mem (rest : List (List Char × Int)) (k : Option Int)
    (h : k ∉ rest.map (fun p => jsParseInt p.1)) :
    rest.filter (fun p => jsParseInt p.1 == k) = [] := by
  induction rest with
  | nil => rfl
  | cons q qs ih =>
    simp only [List.map_cons, List.mem_cons] at h
    push_neg at h
    rw [List.filter_cons]
    have hb : ((jsParseInt q.1 == k) : Bool) = false := by simp [Ne.symm h.1]
    simp only [hb, Bool.false_eq_true, if_false]
    exact ih h.2

theorem lastValueFor_cons_last (k0 : List Char) (v0 : Int)
    (rest : List (List Char × Int))
    (h : jsParseInt k0 ∉ rest.map (fun p => jsParseInt p.1)) :
    lastValueFor ((k0, v0) :: rest) (jsParseInt k0) = v0 := by
  unfold lastValueFor
  rw [List.filter_cons]
  have hb : ((jsParseInt k0 == jsParseInt k0) : Bool) = true := by simp
  simp only [hb, if_true]
  rw [filter_eq_nil_of_not_mem rest (jsParseInt k0) h]
  rfl

theorem lastValueFor_cons_mem (k0 : List Char) (v0 : Int)
    (rest : List (List Char × Int)) (k : Option Int)
    (h : k ∈ rest.map (fun p => jsParseInt p.1)) :
    lastValueFor ((k0, v0) :: rest) k = lastValueFor rest k := by
  by_cases heq : jsParseInt k0 = k
  · unfold lastValueFor
    rw [List.filter_cons]
    have hb : ((jsParseInt k0 == k) : Bool) = true := by simp [heq]
    simp only [hb, if_true]
    have hne : rest.filter (fun p => jsParseInt p.1 == k) ≠ [] := by
      obtain ⟨q, hq, hqk⟩ := List.mem_map.mp h
      intro hnil
      have : q ∈ rest.filter (fun p => jsParseInt p.1 == k) :=
        List.mem_filter.mpr ⟨hq, by simp [hqk]⟩
      rw [hnil] at this
      cases this
    cases hf : rest.filter (fun p => jsParseInt p.1 == k) with
    | nil => exact absurd hf hne
    | cons q qs =>
      simp only [List.map_cons, List.getLast?_cons_cons]
  · exact lastValueFor_cons_ne k0 v0 rest k heq

theorem writeLoop_lookup (setAttr : Option Int → Int → Except (List Char) Unit) :
    ∀ (es : List (List Char × Int)) (acc : List (Option Int × WriteItemResult))
      (k : Option Int),
      lookupRes (writeLoop setAttr es acc).1 k =
        if k ∈ es.map (fun p => jsParseInt p.1) then
          some (writeOutcome (setAttr k (lastValueFor es k)))
        else lookupRes acc k := by
  intro es
  induction es with
  | nil =>
    intro acc k
    simp [writeLoop]
  | cons p rest ih =>
    intro acc k
    obtain ⟨k0, v0⟩ := p
    simp only [writeLoop, List.map_cons, List.mem_cons]
    rw [ih]
    by_cases hrest : k ∈ rest.map (fun p => jsParseInt p.1)
    · rw [if_pos hrest, if_pos (Or.inr hrest), lastValueFor_cons_mem k0 v0 rest k hrest]
    · rw [if_neg hrest, lookupRes_upsert]
      by_cases hk0 : jsParseInt k0 = k
      · rw [if_pos hk0, if_pos (Or.inl hk0.symm)]
        subst hk0
        rw [lastValueFor_cons_last k0 v0 rest hrest]
      · rw [if_neg hk0, if_neg ?_]
        rintro (heq | hmem)
        · exact hk0 heq.symm
        · exact hrest hmem

theorem lookup_graph (f : Option Int → WriteItemResult) :
    ∀ (L : List (Option Int)) (k : Option Int),
      lookupRes (L.map (fun j => (j, f j))) k =
        if k ∈ L then some (f k) else none := by
  intro L
  induction L with
  | nil => intro k; simp [lookupRes]
  | cons x xs ih =>
    intro k
    by_cases h : x = k
    · subst h
      have hb : (x == x) = true := by simp
      simp [lookupRes, hb]
    · have hb : (x == k) = false := by simp [h]
      simp only [List.map_cons, lookupRes, hb, Bool.false_eq_true, if_false, ih,
        List.mem_cons]
      by_cases hm : k ∈ xs
      · simp [hm]
      · simp [hm, Ne.symm h]

theorem assoc_ext : ∀ (m t : List (Option Int × WriteItemResult)),
    m.map Prod.fst = t.map Prod.fst → (t.map Prod.fst).Nodup →
    (∀ k, lookupRes m k = lookupRes t k) → m = t := by
  intro m
  induction m with
  | nil =>
    intro t hk _ _
    cases t with
    | nil => rfl
    | cons q t2 => simp at hk
  | cons p m2 ih =>
    intro t hk hnd hl
    obtain ⟨k0, v0⟩ := p
    cases t with
    | nil => simp at hk
    | cons q t2 =>
      obtain ⟨k1, w⟩ := q
      simp only [List.map_cons, List.cons.injEq] at hk
      obtain ⟨hk01, hkrest⟩ := hk
      subst hk01
      have hv : v0 = w := by
        have hq := hl k0
        have hb : (k0 == k0) = true := by simp
        simp only [lookupRes, hb, if_true] at hq
        injection hq
      subst hv
      simp only [List.map_cons, List.nodup_cons] at hnd
      congr 1
      refine ih t2 hkrest hnd.2 (fun k => ?_)
      by_cases hkk : k = k0
      · subst hkk
        rw [lookupRes_not_mem m2 k (hkrest ▸ hnd.1), lookupRes_not_mem t2 k hnd.1]
      · have hq := hl k
        have hb : (k0 == k) = false := by simp [Ne.symm hkk]
        simpa only [lookupRes, hb, Bool.false_eq_true, if_false] using hq

/-! ### Claim theorem for write_attributes (C2) -/

/-- C2: once the endpoint and cluster resolve, handleWriteAttributes never
fails as a whole: it attempts every entry of the attribute map in order
(the trace component), and the returned map holds exactly one per-item
result for each distinct requested attribute id, in first-occurrence
order, whose success flag or error detail reflects the setAttribute
outcome for the last value written under that id. -/
theorem c2_write_per_item (n : List Char) (devices : List MDevice)
    (setAttr : Option Int → Int → Except (List Char) Unit) (a : WriteArgs)
    (d : MDevice)
    (hd : devices.find? (fun x => x.number == a.endpointId) = some d)
    (hc : d.clusters.contains a.clusterId = true) :
    handleWriteAttributes n devices setAttr a =
      (Except.ok
        { nodeId := n, endpointId := a.endpointId, clusterId := a.clusterId,
          writeResults := (dedupFirst (a.attributes.map (fun p => jsParseInt p.1))).map
            (fun k => (k, writeOutcome (setAttr k (lastValueFor a.attributes k)))) },
       a.attributes.map (fun p => (jsParseInt p.1, p.2))) := by
  unfold handleWriteAttributes
  rw [hd]
  simp only [hc, if_true]
  rw [writeLoop_trace]
  have hmain : (writeLoop setAttr a.attributes []).1 =
      (dedupFirst (a.attributes.map (fun p => jsParseInt p.1))).map
        (fun k => (k, writeOutcome (setAttr k (lastValueFor a.attributes k)))) := by
    apply assoc_ext
    · rw [writeLoop_keys]
      simp only [List.map_nil, List.nil_append, List.map_map]
      have h1 : (dedupFirst (a.attributes.map (fun p => jsParseInt p.1))).filter
          (fun k => !(decide (k ∈ ([] : List (Option Int))))) =
          dedupFirst (a.attributes.map (fun p => jsParseInt p.1)) := by
        apply List.filter_eq_self.mpr
        intro x _
        simp
      rw [h1]
      have hcomp : (Prod.fst ∘ fun k =>
          (k, writeOutcome (setAttr k (lastValueFor a.attributes k)))) =
          fun (k : Option Int) => k := rfl
      rw [hcomp, List.map_id']
    · have : ((dedupFirst (a.attributes.map (fun p => jsParseInt p.1))).map
          (fun k => (k, writeOutcome (setAttr k (lastValueFor a.attributes k))))).map
            Prod.fst =
          dedupFirst (a.attributes.map (fun p => jsParseInt p.1)) := by
        rw [List.map_map]
        have hcomp : (Prod.fst ∘ fun k =>
            (k, writeOutcome (setAttr k (lastValueFor a.attributes k)))) =
            fun (k : Option Int) => k := rfl
        rw [hcomp, List.map_id']
      rw [this]
      exact dedupFirst_nodup _
    · intro k
      rw [writeLoop_lookup, lookup_graph]
      by_cases hm : k ∈ a.attributes.map (fun p => jsParseInt p.1)
      · rw [if_pos hm, if_pos ((dedupFirst_mem _ k).mpr hm)]
      · rw [if_neg hm, if_neg (fun hmem => hm ((dedupFirst_mem _ k).mp hmem))]
        rfl
  rw [hmain]

/-- Witness for C2: one parseable id whose write succeeds and one whose
write is rejected; the call succeeds with two per-item results. -/
theorem c2_write_per_item_witness :
    handleWriteAttributes (("n").data) [{ number := 1, clusters := [6] }]
        (fun k _ => if k == some 5 then Except.ok () else Except.error (("boom").data))
        { endpointId := 1, clusterId := 6,
          attributes := [(("5").data, 11), (("9").data, 22)] } =
      (Except.ok
        { nodeId := ("n").data, endpointId := 1, clusterId := 6,
          writeResults := (dedupFirst ([(("5").data, 11), (("9").data, 22)].map
              (fun p => jsParseInt p.1))).map
            (fun k => (k, writeOutcome
              ((fun (k : Option Int) (_ : Int) =>
                if k == some 5 then Except.ok () else Except.error (("boom").data)) k
                (lastValueFor [(("5").data, 11), (("9").data, 22)] k)))) },
       [(("5").data, 11), (("9").data, 22)].map (fun p => (jsParseInt p.1, p.2))) :=
  c2_write_per_item (("n").data) [{ number := 1, clusters := [6] }]
    (fun k _ => if k == some 5 then Except.ok () else Except.error (("boom").data))
    { endpointId := 1, clusterId := 6,
      attributes := [(("5").data, 11), (("9").data, 22)] }
    { number := 1, clusters := [6] } (by decide) (by decide)

end MatterMcp
